import Mathlib

/-!
Verification of the outbound delivery dispatcher (src/src/infra/outbound/deliver.ts)
and the gateway call client (src/unnamed/part_001) of wefine/openclaw.

The TypeScript code is shallowly embedded: the dispatcher's mutable `results`
array and its callback invocations become an explicit `DeliverState` threaded
through the recursion, the injected per-provider send functions become a send
oracle `Nat → SendCall → Except E R` (indexed by the running call counter, so a
test double can succeed or fail per call), and the promise-settlement machinery
of `callGateway` becomes a step function over an explicit call state folded over
an event sequence.  External collaborators that live outside the repository
snapshot (the text chunkers, `resolveTextChunkLimit`, `resolveTelegramToken`,
`loadConfig`, `resolveGatewayPort`, `pickPrimaryTailnetIPv4`, `process.env`)
are universally quantified parameters.
-/

namespace Clawdbot

/-! ## Data model (deliver.ts lines 17-41) -/

inductive Provider
  | whatsapp
  | telegram
  | discord
  | slack
  | signal
  | imessage
deriving DecidableEq, Repr

/-- `ReplyPayload` (the fields consumed by deliver.ts): optional `text`,
optional singular `mediaUrl`, optional `mediaUrls` list.  `Option` models a
possibly-absent (undefined) field. -/
structure ReplyPayload where
  text : Option String := none
  mediaUrl : Option String := none
  mediaUrls : Option (List String) := none
deriving DecidableEq, Repr

/-- `NormalizedOutboundPayload` from deliver.ts lines 36-39. -/
structure NormalizedOutboundPayload where
  text : String
  mediaUrls : List String
deriving DecidableEq, Repr

/-- `const MB = 1024 * 1024` (deliver.ts line 17). -/
def MB : Nat := 1024 * 1024

/-- `normalizeOutboundPayloads` (deliver.ts lines 63-72).
`payload.text ?? ""` is a nullish-coalescing default;
`payload.mediaUrls ?? (payload.mediaUrl ? [payload.mediaUrl] : [])` keeps an
explicitly supplied list (even an empty one) and otherwise lifts a truthy
(non-empty) `mediaUrl` into a one-element list; the filter keeps a payload when
`payload.text` is truthy (non-empty, not trimmed) or the media list is
non-empty. -/
def normalizeOutboundPayloads (payloads : List ReplyPayload) :
    List NormalizedOutboundPayload :=
  (payloads.map fun payload =>
    { text := payload.text.getD ""
      mediaUrls :=
        match payload.mediaUrls with
        | some urls => urls
        | none =>
          match payload.mediaUrl with
          | some u => if u = "" then [] else [u]
          | none => [] }).filter
    fun payload => payload.text != "" || payload.mediaUrls.length != 0

/-! ## Per-provider resolution (deliver.ts lines 43-61) -/

/-- The two chunking strategies that `resolveChunker` can select:
`chunkMarkdownText` or `chunkText` (both imported from auto-reply/chunk.js,
outside this snapshot, so they stay abstract). -/
inductive ChunkerKind
  | markdown
  | plain
deriving DecidableEq, Repr

/-- `resolveChunker` (deliver.ts lines 43-49): telegram gets the markdown-aware
splitter, whatsapp/signal/imessage the plain splitter, everyone else none. -/
def resolveChunker : Provider → Option ChunkerKind
  | .telegram => some .markdown
  | .whatsapp => some .plain
  | .signal => some .plain
  | .imessage => some .plain
  | _ => none

/-- A config section carrying `mediaMaxMb` (cfg.signal / cfg.imessage /
cfg.agent). -/
structure MediaCfg where
  mediaMaxMb : Option Nat := none
deriving DecidableEq, Repr

/-- The slice of `ClawdbotConfig` consumed by deliver.ts. -/
structure ClawdbotConfig where
  signal : Option MediaCfg := none
  imessage : Option MediaCfg := none
  agent : Option MediaCfg := none
deriving DecidableEq, Repr

/-- JavaScript truthiness of an optional number: `undefined` and `0` are
falsy. -/
def truthyNat (o : Option Nat) : Option Nat :=
  match o with
  | some n => if n = 0 then none else some n
  | none => none

/-- `resolveSignalMaxBytes` (deliver.ts lines 51-55): provider value times MB
when truthy, else agent value times MB when truthy, else undefined. -/
def resolveSignalMaxBytes (cfg : ClawdbotConfig) : Option Nat :=
  match truthyNat (cfg.signal.bind MediaCfg.mediaMaxMb) with
  | some n => some (n * MB)
  | none =>
    match truthyNat (cfg.agent.bind MediaCfg.mediaMaxMb) with
    | some n => some (n * MB)
    | none => none

/-- `resolveIMessageMaxBytes` (deliver.ts lines 57-61). -/
def resolveIMessageMaxBytes (cfg : ClawdbotConfig) : Option Nat :=
  match truthyNat (cfg.imessage.bind MediaCfg.mediaMaxMb) with
  | some n => some (n * MB)
  | none =>
    match truthyNat (cfg.agent.bind MediaCfg.mediaMaxMb) with
    | some n => some (n * MB)
    | none => none

/-! ## Send calls

Each invocation of an injected send function is recorded as a `SendCall`:
destination, text/caption, and the options object fields the branch passes
(deliver.ts lines 116-195). -/

structure SendCall where
  provider : Provider
  dest : String
  text : String
  verbose : Option Bool := none
  mediaUrl : Option String := none
  token : Option String := none
  maxBytes : Option Nat := none
deriving DecidableEq, Repr

/-- The call `sendText` makes for each provider (deliver.ts lines 116-149):
whatsapp/telegram/discord pass `verbose: false`, telegram adds the resolved
token, signal/imessage pass `maxBytes`, slack passes no options. -/
def mkTextCall (provider : Provider) (dest : String) (telegramToken : Option String)
    (signalMaxBytes imessageMaxBytes : Option Nat) (text : String) : SendCall :=
  match provider with
  | .whatsapp => { provider := .whatsapp, dest := dest, text := text, verbose := some false }
  | .telegram =>
    { provider := .telegram, dest := dest, text := text, verbose := some false
      token := telegramToken }
  | .signal => { provider := .signal, dest := dest, text := text, maxBytes := signalMaxBytes }
  | .imessage =>
    { provider := .imessage, dest := dest, text := text, maxBytes := imessageMaxBytes }
  | .slack => { provider := .slack, dest := dest, text := text }
  | .discord => { provider := .discord, dest := dest, text := text, verbose := some false }

/-- The call `sendMedia` makes for each provider (deliver.ts lines 151-195):
like `mkTextCall` but every branch additionally passes `mediaUrl`. -/
def mkMediaCall (provider : Provider) (dest : String) (telegramToken : Option String)
    (signalMaxBytes imessageMaxBytes : Option Nat) (caption url : String) : SendCall :=
  match provider with
  | .whatsapp =>
    { provider := .whatsapp, dest := dest, text := caption, verbose := some false
      mediaUrl := some url }
  | .telegram =>
    { provider := .telegram, dest := dest, text := caption, verbose := some false
      mediaUrl := some url, token := telegramToken }
  | .signal =>
    { provider := .signal, dest := dest, text := caption, mediaUrl := some url
      maxBytes := signalMaxBytes }
  | .imessage =>
    { provider := .imessage, dest := dest, text := caption, mediaUrl := some url
      maxBytes := imessageMaxBytes }
  | .slack => { provider := .slack, dest := dest, text := caption, mediaUrl := some url }
  | .discord =>
    { provider := .discord, dest := dest, text := caption, verbose := some false
      mediaUrl := some url }

/-! ## Delivery engine (deliver.ts lines 74-218)

The mutable context of one `deliverOutboundPayloads` call: the `results` array,
the sequence of send-function invocations, the `onError` and `onPayload`
callback invocations, and a counter numbering the send calls (the oracle's
index, so sends can succeed or fail individually). -/

structure DeliverState (E R : Type) where
  results : List (Provider × R) := []
  calls : List SendCall := []
  onErrorCalls : List (E × NormalizedOutboundPayload) := []
  onPayloadCalls : List NormalizedOutboundPayload := []
  counter : Nat := 0
deriving DecidableEq, Repr

/-- One awaited send-function invocation.  On success the tagged result is
pushed onto `results` (deliver.ts `results.push(\x7b provider, ...res \x7d)`);
on rejection the error is returned for the enclosing try/catch. -/
def sendOne {E R : Type} (oracle : Nat → SendCall → Except E R) (call : SendCall)
    (s : DeliverState E R) : DeliverState E R × Option E :=
  match oracle s.counter call with
  | .ok r =>
    ({ s with results := s.results ++ [(call.provider, r)]
              calls := s.calls ++ [call]
              counter := s.counter + 1 }, none)
  | .error e =>
    ({ s with calls := s.calls ++ [call], counter := s.counter + 1 }, some e)

/-- The `for (const chunk of chunker(text, textLimit)) await sendText(chunk)`
loop body (deliver.ts lines 111-113): sequential sends, aborting at the first
rejection. -/
def sendTextList {E R : Type} (oracle : Nat → SendCall → Except E R)
    (mkT : String → SendCall) :
    List String → DeliverState E R → DeliverState E R × Option E
  | [], s => (s, none)
  | t :: ts, s =>
    match sendOne oracle (mkT t) s with
    | (s1, none) => sendTextList oracle mkT ts s1
    | (s1, some e) => (s1, some e)

/-- `sendTextChunks` (deliver.ts lines 106-114): without a chunker (or resolved
limit) the text goes out as a single send; otherwise every chunk is sent in
order. -/
def sendTextChunks {E R : Type} (oracle : Nat → SendCall → Except E R)
    (mkT : String → SendCall) (chunker : Option (String → Nat → List String))
    (textLimit : Option Nat) (text : String) (s : DeliverState E R) :
    DeliverState E R × Option E :=
  match chunker, textLimit with
  | some ch, some limit => sendTextList oracle mkT (ch text limit) s
  | _, _ => sendOne oracle (mkT text) s

/-- The media loop (deliver.ts lines 206-211): one `sendMedia` per URL in list
order, the `first` flag selecting the payload text as caption exactly once. -/
def sendMediaList {E R : Type} (oracle : Nat → SendCall → Except E R)
    (mkM : String → String → SendCall) (text : String) :
    List String → Bool → DeliverState E R → DeliverState E R × Option E
  | [], _, s => (s, none)
  | u :: us, first, s =>
    match sendOne oracle (mkM (if first then text else "") u) s with
    | (s1, none) => sendMediaList oracle mkM text us false s1
    | (s1, some e) => (s1, some e)

/-- The send calls the media loop performs when every send succeeds: one call
per URL in order, the first carrying `text` as caption, the rest the empty
caption. -/
def mediaCallList (mkM : String → String → SendCall) (text : String) :
    List String → Bool → List SendCall
  | [], _ => []
  | u :: us, first =>
    mkM (if first then text else "") u :: mediaCallList mkM text us false

/-- The body of the per-payload try block (deliver.ts lines 201-211): text
payloads go through `sendTextChunks`, payloads with media through the media
loop. -/
def processBody {E R : Type} (oracle : Nat → SendCall → Except E R)
    (mkT : String → SendCall) (mkM : String → String → SendCall)
    (chunker : Option (String → Nat → List String)) (textLimit : Option Nat)
    (p : NormalizedOutboundPayload) (s : DeliverState E R) :
    DeliverState E R × Option E :=
  if p.mediaUrls.length = 0 then
    sendTextChunks oracle mkT chunker textLimit p.text s
  else
    sendMediaList oracle mkM p.text p.mediaUrls true s

/-- The payload loop with its try/catch (deliver.ts lines 198-216): `onPayload`
fires before the attempt; a caught error is swallowed into an `onError`
invocation under best-effort and rethrown otherwise. -/
def deliverGo {E R : Type} (oracle : Nat → SendCall → Except E R)
    (mkT : String → SendCall) (mkM : String → String → SendCall)
    (chunker : Option (String → Nat → List String)) (textLimit : Option Nat)
    (bestEffort : Bool) :
    List NormalizedOutboundPayload → DeliverState E R → DeliverState E R × Option E
  | [], s => (s, none)
  | p :: ps, s =>
    match processBody oracle mkT mkM chunker textLimit p
        { s with onPayloadCalls := s.onPayloadCalls ++ [p] } with
    | (s1, none) => deliverGo oracle mkT mkM chunker textLimit bestEffort ps s1
    | (s1, some e) =>
      if bestEffort then
        deliverGo oracle mkT mkM chunker textLimit bestEffort ps
          { s1 with onErrorCalls := s1.onErrorCalls ++ [(e, p)] }
      else (s1, some e)

/-- The telegram token resolved once per call (deliver.ts lines 97-100):
`resolveTelegramToken(cfg).token || undefined` for telegram, absent otherwise.
`telegramCfgToken` abstracts `resolveTelegramToken(cfg).token`. -/
def telegramTokenOpt (telegramCfgToken : ClawdbotConfig → String)
    (cfg : ClawdbotConfig) (provider : Provider) : Option String :=
  if provider = .telegram then
    (if telegramCfgToken cfg = "" then none else some (telegramCfgToken cfg))
  else none

/-- `signalMaxBytes` (deliver.ts lines 101-102). -/
def providerSignalMaxBytes (cfg : ClawdbotConfig) (provider : Provider) : Option Nat :=
  if provider = .signal then resolveSignalMaxBytes cfg else none

/-- `imessageMaxBytes` (deliver.ts lines 103-104). -/
def providerIMessageMaxBytes (cfg : ClawdbotConfig) (provider : Provider) : Option Nat :=
  if provider = .imessage then resolveIMessageMaxBytes cfg else none

/-- What one `deliverOutboundPayloads` call observably does: the value the
returned promise settles to, plus the traces of send-function, `onError`, and
`onPayload` invocations. -/
structure DeliverOutput (E R : Type) where
  result : Except E (List (Provider × R))
  calls : List SendCall
  onErrorCalls : List (E × NormalizedOutboundPayload)
  onPayloadCalls : List NormalizedOutboundPayload
deriving Repr

/-- The concrete splitter a `ChunkerKind` stands for, given the two imported
chunkers (`const chunker = resolveChunker(provider)` at deliver.ts line 95
returns `chunkMarkdownText` or `chunkText` directly). -/
def deliverChunkerFn (chunkMarkdownText chunkText : String → Nat → List String) :
    Option ChunkerKind → Option (String → Nat → List String)
  | some .markdown => some chunkMarkdownText
  | some .plain => some chunkText
  | none => none

/-- `const textLimit = chunker ? resolveTextChunkLimit(cfg, provider) :
undefined` (deliver.ts line 96). -/
def deliverTextLimit (resolveTextChunkLimit : ClawdbotConfig → Provider → Nat)
    (cfg : ClawdbotConfig) (provider : Provider) : Option Nat :=
  if (resolveChunker provider).isSome then some (resolveTextChunkLimit cfg provider)
  else none

/-- `deliverOutboundPayloads` (deliver.ts lines 74-218).  `chunkMarkdownText`,
`chunkText`, `resolveTextChunkLimit` and `resolveTelegramToken(·).token` are
imported collaborators kept abstract; `oracle` stands for the injected send
functions (indexed by call number so individual sends may succeed or fail). -/
def deliverOutboundPayloads {E R : Type} (chunkMarkdownText chunkText : String → Nat → List String)
    (resolveTextChunkLimit : ClawdbotConfig → Provider → Nat)
    (telegramCfgToken : ClawdbotConfig → String)
    (oracle : Nat → SendCall → Except E R) (cfg : ClawdbotConfig)
    (provider : Provider) (dest : String) (payloads : List ReplyPayload)
    (bestEffort : Bool) : DeliverOutput E R :=
  match deliverGo oracle
      (mkTextCall provider dest (telegramTokenOpt telegramCfgToken cfg provider)
        (providerSignalMaxBytes cfg provider) (providerIMessageMaxBytes cfg provider))
      (mkMediaCall provider dest (telegramTokenOpt telegramCfgToken cfg provider)
        (providerSignalMaxBytes cfg provider) (providerIMessageMaxBytes cfg provider))
      (deliverChunkerFn chunkMarkdownText chunkText (resolveChunker provider))
      (deliverTextLimit resolveTextChunkLimit cfg provider) bestEffort
      (normalizeOutboundPayloads payloads) {} with
  | (s, none) =>
    { result := .ok s.results, calls := s.calls, onErrorCalls := s.onErrorCalls
      onPayloadCalls := s.onPayloadCalls }
  | (s, some e) =>
    { result := .error e, calls := s.calls, onErrorCalls := s.onErrorCalls
      onPayloadCalls := s.onPayloadCalls }

/-! ## Gateway call client (src/unnamed/part_001)

Target/token/password resolution (lines 27-74) and the single-settlement
promise machinery (lines 110-161).  `loadConfig`, `resolveGatewayPort`,
`pickPrimaryTailnetIPv4` and the environment variables are inputs. -/

/-- `config.gateway.remote` (url / token / password). -/
structure GatewayRemoteConfig where
  url : Option String := none
  token : Option String := none
  password : Option String := none
deriving DecidableEq, Repr

/-- `config.gateway.auth` (token / password). -/
structure GatewayAuthConfig where
  token : Option String := none
  password : Option String := none
deriving DecidableEq, Repr

/-- `config.gateway` (mode / remote / auth / bind). -/
structure GatewayConfig where
  mode : Option String := none
  remote : Option GatewayRemoteConfig := none
  auth : Option GatewayAuthConfig := none
  bind : Option String := none
deriving DecidableEq, Repr

/-- JavaScript `String.prototype.trim()`: strip leading and trailing
whitespace (structurally recursive so that concrete instances evaluate). -/
def jsTrim (s : String) : String :=
  String.mk
    (((s.data.dropWhile Char.isWhitespace).reverse.dropWhile Char.isWhitespace).reverse)

/-- `typeof x === "string" && x.trim().length > 0 ? x.trim() : undefined`
(part_001 lines 42-49, 52-54, 56-58, ...): the trimmed value when the optional
string is present and not blank. -/
def nonBlankTrim (o : Option String) : Option String :=
  match o with
  | some s => if 0 < (jsTrim s).length then some (jsTrim s) else none
  | none => none

/-- JavaScript truthiness of an optional string: `undefined` and `""` are
falsy. -/
def truthyStr (o : Option String) : Bool :=
  match o with
  | some s => s != ""
  | none => false

/-- `config.gateway?.mode === "remote"` (part_001 line 29). -/
def gatewayIsRemoteMode (gw : Option GatewayConfig) : Bool :=
  (gw.bind GatewayConfig.mode) == some "remote"

/-- `remote = isRemoteMode ? config.gateway?.remote : undefined`
(part_001 line 30). -/
def gatewayRemoteCfg (gw : Option GatewayConfig) : Option GatewayRemoteConfig :=
  if gatewayIsRemoteMode gw then gw.bind GatewayConfig.remote else none

/-- The locally constructed URL (part_001 lines 34-41): prefer the tailnet
IPv4 when `bind` is `"tailnet"`, or when it is `"auto"` and an address is
available; otherwise loopback on the resolved port.  `bind` defaults to
`"loopback"`. -/
def callGatewayLocalUrl (gw : Option GatewayConfig) (tailnetIPv4 : Option String)
    (localPort : Nat) : String :=
  let bindMode := (gw.bind GatewayConfig.bind).getD "loopback"
  let preferTailnet :=
    bindMode == "tailnet" || (bindMode == "auto" && truthyStr tailnetIPv4)
  if preferTailnet && truthyStr tailnetIPv4 then
    "ws://" ++ tailnetIPv4.getD "" ++ ":" ++ toString localPort
  else
    "ws://127.0.0.1:" ++ toString localPort

/-- `const url = urlOverride || remoteUrl || localUrl` (part_001 lines 42-50). -/
def callGatewayUrl (gw : Option GatewayConfig) (optsUrl tailnetIPv4 : Option String)
    (localPort : Nat) : String :=
  let urlOverride := nonBlankTrim optsUrl
  let remoteUrl := nonBlankTrim ((gatewayRemoteCfg gw).bind GatewayRemoteConfig.url)
  urlOverride.getD (remoteUrl.getD (callGatewayLocalUrl gw tailnetIPv4 localPort))

/-- The auth token resolution (part_001 lines 51-62): the trimmed non-blank
explicit token; otherwise in remote mode exactly the trimmed non-blank remote
config token, and in non-remote mode the trimmed non-blank
`CLAWDBOT_GATEWAY_TOKEN` environment value, else the trimmed non-blank
`config.gateway.auth.token`. -/
def callGatewayToken (gw : Option GatewayConfig) (optsToken envToken : Option String) :
    Option String :=
  match nonBlankTrim optsToken with
  | some t => some t
  | none =>
    if gatewayIsRemoteMode gw then
      nonBlankTrim ((gw.bind GatewayConfig.remote).bind GatewayRemoteConfig.token)
    else
      match nonBlankTrim envToken with
      | some t => some t
      | none => nonBlankTrim ((gw.bind GatewayConfig.auth).bind GatewayAuthConfig.token)

/-- `formatCloseError` (part_001 lines 97-107). -/
def formatCloseError (connectionDetails : String) (code : Nat) (reason : String) :
    String :=
  let reasonText := if jsTrim reason != "" then jsTrim reason else "no close reason"
  let hint :=
    if code = 1006 then "abnormal closure (no close frame)"
    else if code = 1000 then "normal closure"
    else ""
  let suffix := if hint != "" then " " ++ hint else ""
  "gateway closed (" ++ toString code ++ suffix ++ "): " ++ reasonText ++ "\n"
    ++ connectionDetails

/-- `formatTimeoutError` (part_001 lines 108-109). -/
def formatTimeoutError (connectionDetails : String) (timeoutMs : Nat) : String :=
  "gateway timeout after " ++ toString timeoutMs ++ "ms\n" ++ connectionDetails

/-- The mutable context of the promise executor (part_001 lines 110-119):
`settled` and `ignoreClose` flags, whether the timer was cleared and the client
stopped, and the outcome the promise settled to (`.ok` = resolve,
`.error` = reject). -/
structure GatewayCallState (T : Type) where
  settled : Bool := false
  ignoreClose : Bool := false
  timerCleared : Bool := false
  clientStopped : Bool := false
  outcome : Option (Except String T) := none
deriving Repr

/-- `stop(err?, value?)` (part_001 lines 113-119): a no-op when already
settled; otherwise marks the call settled, clears the timer, and rejects or
resolves. -/
def stopWith {T : Type} (s : GatewayCallState T) (v : Except String T) :
    GatewayCallState T :=
  if s.settled then s
  else { s with settled := true, timerCleared := true, outcome := some v }

/-- The four asynchronous triggers racing for the settlement
(part_001 lines 132-158): the request resolving, the request rejecting, the
connection close callback, and the timeout timer firing. -/
inductive GatewayEvent (T : Type)
  | requestOk (value : T)
  | requestErr (err : String)
  | closeEvt (code : Nat) (reason : String)
  | timeoutFire
deriving DecidableEq, Repr

/-- One trigger firing against the current call state, exactly as the
handlers in part_001 run: request completion sets `ignoreClose`, settles with
the value, then stops the client (lines 137-139); request failure sets
`ignoreClose`, stops the client, settles with the error (lines 141-143);
`onClose` is a no-op once `settled || ignoreClose`, otherwise it settles with
the formatted close error (lines 146-151); the timeout settles with the
formatted timeout error (lines 154-158). -/
def gatewayStep {T : Type} (connectionDetails : String) (timeoutMs : Nat)
    (s : GatewayCallState T) : GatewayEvent T → GatewayCallState T
  | .requestOk v =>
    let s1 := { s with ignoreClose := true }
    let s2 := stopWith s1 (Except.ok v)
    { s2 with clientStopped := true }
  | .requestErr e =>
    let s1 := { s with ignoreClose := true, clientStopped := true }
    stopWith s1 (Except.error e)
  | .closeEvt code reason =>
    if s.settled || s.ignoreClose then s
    else
      let s1 := { s with ignoreClose := true, clientStopped := true }
      stopWith s1 (Except.error (formatCloseError connectionDetails code reason))
  | .timeoutFire =>
    let s1 := { s with ignoreClose := true, clientStopped := true }
    stopWith s1 (Except.error (formatTimeoutError connectionDetails timeoutMs))

/-- A whole call: the triggers fire one at a time (single-threaded event loop)
in some order, starting from the initial state. -/
def gatewayRun {T : Type} (connectionDetails : String) (timeoutMs : Nat)
    (events : List (GatewayEvent T)) : GatewayCallState T :=
  events.foldl (gatewayStep connectionDetails timeoutMs) {}


/-! ## Trace bookkeeping

To state ordering properties, the outcomes of a call trace are replayed
against the oracle: `tracedSuccesses` collects the tagged results of the
sends that succeeded, `tracedFailures` the errors of the sends that were
rejected, both in call order. -/

def tracedSuccesses {E R : Type} (oracle : Nat → SendCall → Except E R) :
    List SendCall → Nat → List (Provider × R)
  | [], _ => []
  | c :: cs, i =>
    match oracle i c with
    | .ok r => (c.provider, r) :: tracedSuccesses oracle cs (i + 1)
    | .error _ => tracedSuccesses oracle cs (i + 1)

def tracedFailures {E R : Type} (oracle : Nat → SendCall → Except E R) :
    List SendCall → Nat → List E
  | [], _ => []
  | c :: cs, i =>
    match oracle i c with
    | .ok _ => tracedFailures oracle cs (i + 1)
    | .error e => e :: tracedFailures oracle cs (i + 1)

/-- The per-state invariant of the delivery engine: the counter numbers the
calls made so far, and the `results` array holds exactly the tagged outcomes
of the successful sends, in call order. -/
def TraceInv {E R : Type} (oracle : Nat → SendCall → Except E R)
    (s : DeliverState E R) : Prop :=
  s.counter = s.calls.length ∧ s.results = tracedSuccesses oracle s.calls 0

/-- A delivery step from `s` to `s'` that raised `e`: the trace grew by some
successful sends and then one final send that the oracle rejected with `e`;
nothing was sent after the failure. -/
def FailsAtEnd {E R : Type} (oracle : Nat → SendCall → Except E R)
    (s s' : DeliverState E R) (e : E) : Prop :=
  ∃ mid c, s'.calls = s.calls ++ mid ++ [c] ∧
    tracedFailures oracle (s.calls ++ mid) 0 = tracedFailures oracle s.calls 0 ∧
    oracle (s.calls ++ mid).length c = Except.error e

/-! ## Concrete instances

Small closed inputs used to evaluate the model on specific scenarios (the
repository's own test cases and inputs exhibiting boundary behaviour). -/

/-- A plain splitter instance for concrete runs: split into a first chunk of at
most `l` characters and the remainder (it splits "abcd" with limit 2 into
"ab" / "cd", matching the chunk-limit-2 cases in deliver.test.ts). -/
def chunkPair (t : String) (l : Nat) : List String :=
  if t.data.length ≤ l then [t]
  else [String.mk (t.data.take l), String.mk (t.data.drop l)]

/-- A send double that always resolves. -/
def allOkOracle : Nat → SendCall → Except String String :=
  fun _ _ => Except.ok "ok"

/-- A send double whose second call (index 1) rejects. -/
def failSecondOracle : Nat → SendCall → Except String String :=
  fun i _ => if i = 1 then Except.error "fail" else Except.ok "ok"

/-- A send double whose first call (index 0) rejects. -/
def failFirstOracle : Nat → SendCall → Except String String :=
  fun i _ => if i = 0 then Except.error "boom" else Except.ok "ok"

/-- The input of the repository's own normalization test
("normalizes payloads and drops empty entries", deliver.test.ts lines
110-120). -/
def c1input : List ReplyPayload :=
  [{ text := some "hi" }, { mediaUrl := some "https://x.test/a.jpg" },
   { text := some " ", mediaUrls := some [] }]

/-- A best-effort whatsapp delivery of one payload whose text splits into two
chunks, the second send failing. -/
def c2out : DeliverOutput String String :=
  deliverOutboundPayloads chunkPair chunkPair (fun _ _ => 2) (fun _ => "")
    failSecondOracle {} Provider.whatsapp "+1555" [{ text := some "abcd" }] true

/-- A non-best-effort whatsapp delivery of two payloads whose first send
fails. -/
def c6out : DeliverOutput String String :=
  deliverOutboundPayloads chunkPair chunkPair (fun _ _ => 10) (fun _ => "")
    failFirstOracle {} Provider.whatsapp "+1555"
    [{ text := some "a" }, { text := some "b" }] false

/-- A payload carrying a caption and two media URLs. -/
def c7payload : NormalizedOutboundPayload := { text := "cap", mediaUrls := ["u1", "u2"] }

/-- Processing `c7payload` for whatsapp with every send succeeding. -/
def c7run : DeliverState String String × Option String :=
  processBody allOkOracle (mkTextCall Provider.whatsapp "d" none none none)
    (mkMediaCall Provider.whatsapp "d" none none none) none none c7payload {}

/-- A payload with media whose text is far longer than any chunk limit. -/
def c10payload : NormalizedOutboundPayload :=
  { text := "abcdefgh", mediaUrls := ["https://x.test/a.jpg"] }

/-- A config with a present-but-zero signal megabyte value and an agent-wide
value of 5. -/
def c9cfg : ClawdbotConfig :=
  { signal := some { mediaMaxMb := some 0 }, agent := some { mediaMaxMb := some 5 } }

/-- The config of the repository's signal media test: `signal.mediaMaxMb = 2`
(deliver.test.ts lines 45-68). -/
def c9cfgSignal : ClawdbotConfig := { signal := some { mediaMaxMb := some 2 } }

/-- A remote-mode gateway config with blank-padded remote url/token, a local
auth token, and no bind mode. -/
def gwRemote : GatewayConfig :=
  { mode := some "remote"
    remote := some { url := some " wss://r.example ", token := some " RTOK " }
    auth := some { token := some "LTOK" } }

theorem tracedSuccesses_append {E R : Type} (oracle : Nat → SendCall → Except E R)
    (xs ys : List SendCall) (i : Nat) :
    tracedSuccesses oracle (xs ++ ys) i =
      tracedSuccesses oracle xs i ++ tracedSuccesses oracle ys (i + xs.length) := by
  induction xs generalizing i with
  | nil => simp [tracedSuccesses]
  | cons c cs ih =>
    simp only [List.cons_append, tracedSuccesses]
    cases oracle i c <;>
      simp [ih, Nat.add_comm, Nat.add_left_comm, Nat.add_assoc]

theorem tracedFailures_append {E R : Type} (oracle : Nat → SendCall → Except E R)
    (xs ys : List SendCall) (i : Nat) :
    tracedFailures oracle (xs ++ ys) i =
      tracedFailures oracle xs i ++ tracedFailures oracle ys (i + xs.length) := by
  induction xs generalizing i with
  | nil => simp [tracedFailures]
  | cons c cs ih =>
    simp only [List.cons_append, tracedFailures]
    cases oracle i c <;>
      simp [ih, Nat.add_comm, Nat.add_left_comm, Nat.add_assoc]

theorem FailsAtEnd.failures_eq {E R : Type} {oracle : Nat → SendCall → Except E R}
    {s s' : DeliverState E R} {e : E} (h : FailsAtEnd oracle s s' e) :
    tracedFailures oracle s'.calls 0 = tracedFailures oracle s.calls 0 ++ [e] := by
  obtain ⟨mid, c, hc, hf, ho⟩ := h
  have ho' : oracle (s.calls.length + mid.length) c = Except.error e := by
    simpa using ho
  rw [hc, tracedFailures_append]
  simp [tracedFailures, ho', hf]

theorem FailsAtEnd.extend {E R : Type} {oracle : Nat → SendCall → Except E R}
    {s s1 s2 : DeliverState E R} {e : E} {ext : List SendCall}
    (hcalls : s1.calls = s.calls ++ ext)
    (hfail : tracedFailures oracle s1.calls 0 = tracedFailures oracle s.calls 0)
    (h : FailsAtEnd oracle s1 s2 e) : FailsAtEnd oracle s s2 e := by
  obtain ⟨mid, c, hc, hf, ho⟩ := h
  refine ⟨ext ++ mid, c, ?_, ?_, ?_⟩
  · rw [hc, hcalls]
    simp [List.append_assoc]
  · rw [← List.append_assoc, ← hcalls, hf, hfail]
  · rw [← List.append_assoc, ← hcalls]
    exact ho

theorem sendOne_spec {E R : Type} {oracle : Nat → SendCall → Except E R}
    {call : SendCall} {s s' : DeliverState E R} {eOpt : Option E}
    (hInv : TraceInv oracle s) (h : sendOne oracle call s = (s', eOpt)) :
    TraceInv oracle s' ∧ s'.calls = s.calls ++ [call] ∧
    s'.onErrorCalls = s.onErrorCalls ∧ s'.onPayloadCalls = s.onPayloadCalls ∧
    (eOpt = none →
      tracedFailures oracle s'.calls 0 = tracedFailures oracle s.calls 0) ∧
    (∀ e, eOpt = some e → FailsAtEnd oracle s s' e) := by
  obtain ⟨hcnt, hres⟩ := hInv
  unfold sendOne at h
  cases hor : oracle s.counter call with
  | ok r =>
    rw [hor] at h
    cases h
    rw [hcnt] at hor
    refine ⟨⟨?_, ?_⟩, rfl, rfl, rfl, ?_, ?_⟩
    · simp [hcnt]
    · rw [tracedSuccesses_append]
      simp [tracedSuccesses, hor, hres]
    · intro _
      rw [tracedFailures_append]
      simp [tracedFailures, hor]
    · intro e he
      cases he
  | error e0 =>
    rw [hor] at h
    cases h
    rw [hcnt] at hor
    refine ⟨⟨?_, ?_⟩, rfl, rfl, rfl, ?_, ?_⟩
    · simp [hcnt]
    · rw [tracedSuccesses_append]
      simp [tracedSuccesses, hor, hres]
    · intro he
      cases he
    · intro e he
      cases he
      exact ⟨[], call, by simp, by simp, by simpa using hor⟩

theorem sendTextList_spec {E R : Type} {oracle : Nat → SendCall → Except E R}
    {mkT : String → SendCall} :
    ∀ {ts : List String} {s s' : DeliverState E R} {eOpt : Option E},
    TraceInv oracle s → sendTextList oracle mkT ts s = (s', eOpt) →
    TraceInv oracle s' ∧ (∃ ext, s'.calls = s.calls ++ ext) ∧
    s'.onErrorCalls = s.onErrorCalls ∧ s'.onPayloadCalls = s.onPayloadCalls ∧
    (eOpt = none →
      tracedFailures oracle s'.calls 0 = tracedFailures oracle s.calls 0) ∧
    (∀ e, eOpt = some e → FailsAtEnd oracle s s' e) := by
  intro ts
  induction ts with
  | nil =>
    intro s s' eOpt hInv h
    cases h
    exact ⟨hInv, ⟨[], by simp⟩, rfl, rfl, fun _ => rfl, fun e he => by cases he⟩
  | cons t ts ih =>
    intro s s' eOpt hInv h
    unfold sendTextList at h
    cases hso : sendOne oracle (mkT t) s with
    | mk s1 e1 =>
      rw [hso] at h
      obtain ⟨hInv1, hcalls1, herr1, hpay1, hnone1, hsome1⟩ := sendOne_spec hInv hso
      cases e1 with
      | none =>
        obtain ⟨hInv', ⟨ext, hcalls'⟩, herr', hpay', hnone', hsome'⟩ := ih hInv1 h
        refine ⟨hInv', ⟨mkT t :: ext, by rw [hcalls', hcalls1]; simp⟩,
          herr'.trans herr1, hpay'.trans hpay1, ?_, ?_⟩
        · intro he
          rw [hnone' he, hnone1 rfl]
        · intro e he
          exact FailsAtEnd.extend hcalls1 (hnone1 rfl) (hsome' e he)
      | some e0 =>
        cases h
        refine ⟨hInv1, ⟨[mkT t], hcalls1⟩, herr1, hpay1, ?_, hsome1⟩
        intro he
        cases he

theorem sendMediaList_spec {E R : Type} {oracle : Nat → SendCall → Except E R}
    {mkM : String → String → SendCall} {text : String} :
    ∀ {us : List String} {first : Bool} {s s' : DeliverState E R} {eOpt : Option E},
    TraceInv oracle s → sendMediaList oracle mkM text us first s = (s', eOpt) →
    TraceInv oracle s' ∧ (∃ ext, s'.calls = s.calls ++ ext) ∧
    s'.onErrorCalls = s.onErrorCalls ∧ s'.onPayloadCalls = s.onPayloadCalls ∧
    (eOpt = none →
      tracedFailures oracle s'.calls 0 = tracedFailures oracle s.calls 0) ∧
    (∀ e, eOpt = some e → FailsAtEnd oracle s s' e) := by
  intro us
  induction us with
  | nil =>
    intro first s s' eOpt hInv h
    cases h
    exact ⟨hInv, ⟨[], by simp⟩, rfl, rfl, fun _ => rfl, fun e he => by cases he⟩
  | cons u us ih =>
    intro first s s' eOpt hInv h
    unfold sendMediaList at h
    cases hso : sendOne oracle (mkM (if first then text else "") u) s with
    | mk s1 e1 =>
      rw [hso] at h
      obtain ⟨hInv1, hcalls1, herr1, hpay1, hnone1, hsome1⟩ := sendOne_spec hInv hso
      cases e1 with
      | none =>
        obtain ⟨hInv', ⟨ext, hcalls'⟩, herr', hpay', hnone', hsome'⟩ := ih hInv1 h
        refine ⟨hInv', ⟨mkM (if first then text else "") u :: ext,
            by rw [hcalls', hcalls1]; simp⟩,
          herr'.trans herr1, hpay'.trans hpay1, ?_, ?_⟩
        · intro he
          rw [hnone' he, hnone1 rfl]
        · intro e he
          exact FailsAtEnd.extend hcalls1 (hnone1 rfl) (hsome' e he)
      | some e0 =>
        cases h
        refine ⟨hInv1, ⟨[mkM (if first then text else "") u], hcalls1⟩, herr1, hpay1,
          ?_, hsome1⟩
        intro he
        cases he

theorem sendTextChunks_spec {E R : Type} {oracle : Nat → SendCall → Except E R}
    {mkT : String → SendCall} {chunker : Option (String → Nat → List String)}
    {textLimit : Option Nat} {text : String} {s s' : DeliverState E R}
    {eOpt : Option E} (hInv : TraceInv oracle s)
    (h : sendTextChunks oracle mkT chunker textLimit text s = (s', eOpt)) :
    TraceInv oracle s' ∧ (∃ ext, s'.calls = s.calls ++ ext) ∧
    s'.onErrorCalls = s.onErrorCalls ∧ s'.onPayloadCalls = s.onPayloadCalls ∧
    (eOpt = none →
      tracedFailures oracle s'.calls 0 = tracedFailures oracle s.calls 0) ∧
    (∀ e, eOpt = some e → FailsAtEnd oracle s s' e) := by
  unfold sendTextChunks at h
  cases chunker with
  | none =>
    cases textLimit with
    | none =>
      obtain ⟨hInv', hcalls, herr, hpay, hnone, hsome⟩ := sendOne_spec hInv h
      exact ⟨hInv', ⟨_, hcalls⟩, herr, hpay, hnone, hsome⟩
    | some limit =>
      obtain ⟨hInv', hcalls, herr, hpay, hnone, hsome⟩ := sendOne_spec hInv h
      exact ⟨hInv', ⟨_, hcalls⟩, herr, hpay, hnone, hsome⟩
  | some ch =>
    cases textLimit with
    | none =>
      obtain ⟨hInv', hcalls, herr, hpay, hnone, hsome⟩ := sendOne_spec hInv h
      exact ⟨hInv', ⟨_, hcalls⟩, herr, hpay, hnone, hsome⟩
    | some limit => exact sendTextList_spec hInv h

theorem processBody_spec {E R : Type} {oracle : Nat → SendCall → Except E R}
    {mkT : String → SendCall} {mkM : String → String → SendCall}
    {chunker : Option (String → Nat → List String)} {textLimit : Option Nat}
    {p : NormalizedOutboundPayload} {s s' : DeliverState E R} {eOpt : Option E}
    (hInv : TraceInv oracle s)
    (h : processBody oracle mkT mkM chunker textLimit p s = (s', eOpt)) :
    TraceInv oracle s' ∧ (∃ ext, s'.calls = s.calls ++ ext) ∧
    s'.onErrorCalls = s.onErrorCalls ∧ s'.onPayloadCalls = s.onPayloadCalls ∧
    (eOpt = none →
      tracedFailures oracle s'.calls 0 = tracedFailures oracle s.calls 0) ∧
    (∀ e, eOpt = some e → FailsAtEnd oracle s s' e) := by
  unfold processBody at h
  by_cases hm : p.mediaUrls.length = 0
  · rw [if_pos hm] at h
    exact sendTextChunks_spec hInv h
  · rw [if_neg hm] at h
    exact sendMediaList_spec hInv h

/-- The payload loop under best-effort: it never rethrows, `results` stays the
list of successful outcomes in call order, the reported `onError` errors are
exactly the failed sends' errors in call order (one per failing payload, since
a payload aborts at its first failure), and every payload is observed by
`onPayload`. -/
theorem deliverGo_bestEffort_spec {E R : Type} {oracle : Nat → SendCall → Except E R}
    {mkT : String → SendCall} {mkM : String → String → SendCall}
    {chunker : Option (String → Nat → List String)} {textLimit : Option Nat} :
    ∀ {ps : List NormalizedOutboundPayload} {s s' : DeliverState E R} {eOpt : Option E},
    TraceInv oracle s →
    s.onErrorCalls.map Prod.fst = tracedFailures oracle s.calls 0 →
    deliverGo oracle mkT mkM chunker textLimit true ps s = (s', eOpt) →
    eOpt = none ∧ TraceInv oracle s' ∧
    s'.onErrorCalls.map Prod.fst = tracedFailures oracle s'.calls 0 ∧
    s'.onPayloadCalls = s.onPayloadCalls ++ ps := by
  intro ps
  induction ps with
  | nil =>
    intro s s' eOpt hInv hErr h
    cases h
    exact ⟨rfl, hInv, hErr, by simp⟩
  | cons p ps ih =>
    intro s s' eOpt hInv hErr h
    unfold deliverGo at h
    set s0 : DeliverState E R :=
      { s with onPayloadCalls := s.onPayloadCalls ++ [p] } with hs0
    have hInv0 : TraceInv oracle s0 := hInv
    have hErr0 : s0.onErrorCalls.map Prod.fst = tracedFailures oracle s0.calls 0 := hErr
    cases hpb : processBody oracle mkT mkM chunker textLimit p s0 with
    | mk s1 e1 =>
      rw [hpb] at h
      obtain ⟨hInv1, ⟨ext, hcalls1⟩, herr1, hpay1, hnone1, hsome1⟩ :=
        processBody_spec hInv0 hpb
      cases e1 with
      | none =>
        have hErr1 : s1.onErrorCalls.map Prod.fst = tracedFailures oracle s1.calls 0 := by
          rw [herr1, hErr0, hnone1 rfl]
        obtain ⟨he, hInv', hErr', hpay'⟩ := ih hInv1 hErr1 h
        refine ⟨he, hInv', hErr', ?_⟩
        rw [hpay', hpay1]
        simp
      | some e =>
        have h2 : deliverGo oracle mkT mkM chunker textLimit true ps
            { s1 with onErrorCalls := s1.onErrorCalls ++ [(e, p)] } = (s', eOpt) := h
        have hfail1 : tracedFailures oracle s1.calls 0 =
            tracedFailures oracle s0.calls 0 ++ [e] :=
          (hsome1 e rfl).failures_eq
        set s2 : DeliverState E R :=
          { s1 with onErrorCalls := s1.onErrorCalls ++ [(e, p)] } with hs2
        have hInv2 : TraceInv oracle s2 := hInv1
        have hErr2 : s2.onErrorCalls.map Prod.fst = tracedFailures oracle s2.calls 0 := by
          show (s1.onErrorCalls ++ [(e, p)]).map Prod.fst = tracedFailures oracle s1.calls 0
          rw [List.map_append, herr1, hErr0, hfail1]
          simp
        obtain ⟨he, hInv', hErr', hpay'⟩ := ih hInv2 hErr2 h2
        refine ⟨he, hInv', hErr', ?_⟩
        have hpay2 : s2.onPayloadCalls = s.onPayloadCalls ++ [p] := hpay1
        rw [hpay', hpay2]
        simp

/-- The payload loop without best-effort: `onError` never fires; if it
completes, no send failed; if it rethrows `e`, the sends stop right at the
single failing call and the payloads after the failing one are never
observed. -/
theorem deliverGo_noBestEffort_spec {E R : Type} {oracle : Nat → SendCall → Except E R}
    {mkT : String → SendCall} {mkM : String → String → SendCall}
    {chunker : Option (String → Nat → List String)} {textLimit : Option Nat} :
    ∀ {ps : List NormalizedOutboundPayload} {s s' : DeliverState E R} {eOpt : Option E},
    TraceInv oracle s →
    deliverGo oracle mkT mkM chunker textLimit false ps s = (s', eOpt) →
    TraceInv oracle s' ∧ s'.onErrorCalls = s.onErrorCalls ∧
    (eOpt = none →
      tracedFailures oracle s'.calls 0 = tracedFailures oracle s.calls 0 ∧
      s'.onPayloadCalls = s.onPayloadCalls ++ ps) ∧
    (∀ e, eOpt = some e → FailsAtEnd oracle s s' e ∧
      ∃ qs rest, ps = qs ++ rest ∧ s'.onPayloadCalls = s.onPayloadCalls ++ qs) := by
  intro ps
  induction ps with
  | nil =>
    intro s s' eOpt hInv h
    cases h
    exact ⟨hInv, rfl, fun _ => ⟨rfl, by simp⟩, fun e he => by cases he⟩
  | cons p ps ih =>
    intro s s' eOpt hInv h
    unfold deliverGo at h
    set s0 : DeliverState E R :=
      { s with onPayloadCalls := s.onPayloadCalls ++ [p] } with hs0
    have hInv0 : TraceInv oracle s0 := hInv
    cases hpb : processBody oracle mkT mkM chunker textLimit p s0 with
    | mk s1 e1 =>
      rw [hpb] at h
      obtain ⟨hInv1, ⟨ext, hcalls1⟩, herr1, hpay1, hnone1, hsome1⟩ :=
        processBody_spec hInv0 hpb
      cases e1 with
      | none =>
        obtain ⟨hInv', herr', hnone', hsome'⟩ := ih hInv1 h
        refine ⟨hInv', herr'.trans herr1, ?_, ?_⟩
        · intro he
          obtain ⟨hfail', hpay'⟩ := hnone' he
          refine ⟨hfail'.trans (hnone1 rfl), ?_⟩
          rw [hpay', hpay1]
          simp
        · intro e he
          obtain ⟨hend, qs, rest, hsplit, hpay'⟩ := hsome' e he
          refine ⟨FailsAtEnd.extend hcalls1 (hnone1 rfl) hend,
            p :: qs, rest, by simp [hsplit], ?_⟩
          rw [hpay', hpay1]
          simp
      | some e =>
        have h2 : (s1, some e) = (s', eOpt) := h
        cases h2
        refine ⟨hInv1, herr1, ?_, ?_⟩
        · intro he
          cases he
        · intro e' he'
          injection he' with hee
          subst hee
          refine ⟨?_, [p], ps, rfl, hpay1⟩
          obtain ⟨mid, c, hc, hf, ho⟩ := hsome1 e rfl
          exact ⟨mid, c, by rw [hc], hf, ho⟩

/-! ## Behaviour of whole delivery calls -/

/-- C2 (amended): under best-effort mode the call always returns (never
rejects); the returned list is exactly the outcomes of the sends that
succeeded, in call order, so a failing payload contributes entries precisely
for its sends that succeeded before its first failure (zero only when its
first send fails); the `onError` invocations carry exactly the failed sends'
errors in order — one per failing payload, since a payload aborts at its first
failed send; and every normalized payload is observed by `onPayload`. -/
theorem C2_best_effort_delivery {E R : Type}
    (cmt ct : String → Nat → List String) (rtl : ClawdbotConfig → Provider → Nat)
    (tct : ClawdbotConfig → String) (oracle : Nat → SendCall → Except E R)
    (cfg : ClawdbotConfig) (provider : Provider) (dest : String)
    (payloads : List ReplyPayload) :
    (deliverOutboundPayloads cmt ct rtl tct oracle cfg provider dest payloads true).result
      = Except.ok (tracedSuccesses oracle
          (deliverOutboundPayloads cmt ct rtl tct oracle cfg provider dest payloads
            true).calls 0) ∧
    (deliverOutboundPayloads cmt ct rtl tct oracle cfg provider dest payloads
        true).onErrorCalls.map Prod.fst
      = tracedFailures oracle
          (deliverOutboundPayloads cmt ct rtl tct oracle cfg provider dest payloads
            true).calls 0 ∧
    (deliverOutboundPayloads cmt ct rtl tct oracle cfg provider dest payloads
        true).onPayloadCalls
      = normalizeOutboundPayloads payloads := by
  rcases hgo : deliverGo oracle
      (mkTextCall provider dest (telegramTokenOpt tct cfg provider)
        (providerSignalMaxBytes cfg provider) (providerIMessageMaxBytes cfg provider))
      (mkMediaCall provider dest (telegramTokenOpt tct cfg provider)
        (providerSignalMaxBytes cfg provider) (providerIMessageMaxBytes cfg provider))
      (deliverChunkerFn cmt ct (resolveChunker provider))
      (deliverTextLimit rtl cfg provider) true
      (normalizeOutboundPayloads payloads) {} with ⟨s, eOpt⟩
  have hInit : TraceInv oracle ({} : DeliverState E R) := ⟨rfl, rfl⟩
  have hErrInit : (({} : DeliverState E R)).onErrorCalls.map Prod.fst =
      tracedFailures oracle (({} : DeliverState E R)).calls 0 := rfl
  obtain ⟨he, ⟨hcnt, hres⟩, hErr', hpay'⟩ :=
    deliverGo_bestEffort_spec hInit hErrInit hgo
  subst he
  simp only [deliverOutboundPayloads, hgo]
  exact ⟨by rw [hres], hErr', by simpa using hpay'⟩

/-- C6: when best-effort is disabled, `onError` never fires; if the call
returns a list, no send in the whole trace failed; and if some send fails, the
call rejects with exactly that first error, the call trace stops right at the
single failing send (all earlier sends succeeded, none follow), and the
normalized payloads after the failing one are never observed by `onPayload` —
the accumulated results are discarded because the outcome is the error, not a
list. -/
theorem C6_non_best_effort_delivery {E R : Type}
    (cmt ct : String → Nat → List String) (rtl : ClawdbotConfig → Provider → Nat)
    (tct : ClawdbotConfig → String) (oracle : Nat → SendCall → Except E R)
    (cfg : ClawdbotConfig) (provider : Provider) (dest : String)
    (payloads : List ReplyPayload) :
    (deliverOutboundPayloads cmt ct rtl tct oracle cfg provider dest payloads
        false).onErrorCalls = [] ∧
    (∀ rs, (deliverOutboundPayloads cmt ct rtl tct oracle cfg provider dest payloads
        false).result = Except.ok rs →
      rs = tracedSuccesses oracle
        (deliverOutboundPayloads cmt ct rtl tct oracle cfg provider dest payloads
          false).calls 0 ∧
      tracedFailures oracle
        (deliverOutboundPayloads cmt ct rtl tct oracle cfg provider dest payloads
          false).calls 0 = [] ∧
      (deliverOutboundPayloads cmt ct rtl tct oracle cfg provider dest payloads
        false).onPayloadCalls = normalizeOutboundPayloads payloads) ∧
    (∀ e, (deliverOutboundPayloads cmt ct rtl tct oracle cfg provider dest payloads
        false).result = Except.error e →
      (∃ cs c, (deliverOutboundPayloads cmt ct rtl tct oracle cfg provider dest payloads
          false).calls = cs ++ [c] ∧
        oracle cs.length c = Except.error e ∧ tracedFailures oracle cs 0 = []) ∧
      ∃ rest, normalizeOutboundPayloads payloads =
        (deliverOutboundPayloads cmt ct rtl tct oracle cfg provider dest payloads
          false).onPayloadCalls ++ rest) := by
  rcases hgo : deliverGo oracle
      (mkTextCall provider dest (telegramTokenOpt tct cfg provider)
        (providerSignalMaxBytes cfg provider) (providerIMessageMaxBytes cfg provider))
      (mkMediaCall provider dest (telegramTokenOpt tct cfg provider)
        (providerSignalMaxBytes cfg provider) (providerIMessageMaxBytes cfg provider))
      (deliverChunkerFn cmt ct (resolveChunker provider))
      (deliverTextLimit rtl cfg provider) false
      (normalizeOutboundPayloads payloads) {} with ⟨s, eOpt⟩
  have hInit : TraceInv oracle ({} : DeliverState E R) := ⟨rfl, rfl⟩
  obtain ⟨⟨hcnt, hres⟩, herr, hnone, hsome⟩ := deliverGo_noBestEffort_spec hInit hgo
  cases eOpt with
  | none =>
    obtain ⟨hfail, hpay⟩ := hnone rfl
    simp only [deliverOutboundPayloads, hgo]
    refine ⟨herr, ?_, ?_⟩
    · intro rs hrs
      injection hrs with hrs
      subst hrs
      exact ⟨hres, by simpa using hfail, by simpa using hpay⟩
    · intro e he
      cases he
  | some e =>
    obtain ⟨hend, qs, rest, hsplit, hpay⟩ := hsome e rfl
    simp only [deliverOutboundPayloads, hgo]
    refine ⟨herr, ?_, ?_⟩
    · intro rs hrs
      cases hrs
    · intro e' he'
      injection he' with hee
      subst hee
      obtain ⟨mid, c, hc, hf, ho⟩ := hend
      refine ⟨⟨mid, c, by simpa using hc, by simpa using ho, by simpa using hf⟩, ?_⟩
      exact ⟨rest, by rw [hsplit]; simpa using congrArg (· ++ rest) hpay.symm⟩

/-! ## Claim C1 -/

/-- C1 (code-bug evaluation): on the repository's own test input
(deliver.test.ts lines 110-120), `normalizeOutboundPayloads` keeps the entry
whose text is a single space, returning three entries, because its filter
tests the untrimmed text for JS truthiness — although that entry's trimmed
text is empty and its media list is empty, so the claim (and the test, which
expects two entries) require it to be dropped. -/
theorem C1_normalize_keeps_blank_entry :
    normalizeOutboundPayloads c1input =
      [{ text := "hi", mediaUrls := [] },
       { text := "", mediaUrls := ["https://x.test/a.jpg"] },
       { text := " ", mediaUrls := [] }] ∧
    jsTrim " " = "" :=
  ⟨rfl, rfl⟩

/-! ## Claim C2 -/

/-- C2 counterexample: with best-effort enabled, a single whatsapp payload
whose text splits into two chunks and whose second send fails yields exactly
one `onError` invocation, yet the returned list still contains one entry —
pushed for the payload's first chunk before the failure — so the failing
payload contributes a nonzero number of entries. -/
theorem C2_best_effort_counterexample :
    c2out.onErrorCalls.length = 1 ∧
    c2out.onPayloadCalls.length = 1 ∧
    c2out.result = Except.ok [(Provider.whatsapp, "ok")] :=
  ⟨rfl, rfl, rfl⟩

/-! ## Claim C6 -/

/-- C6 witness: a concrete non-best-effort run (two payloads, first send
rejects with "boom") instantiating `C6_non_best_effort_delivery`: no
`onError`, the trace ends at the single failing call, and the second payload
is never observed. -/
theorem C6_non_best_effort_witness :
    c6out.onErrorCalls = [] ∧
    (∃ cs c, c6out.calls = cs ++ [c] ∧
      failFirstOracle cs.length c = Except.error "boom" ∧
      tracedFailures failFirstOracle cs 0 = []) ∧
    (∃ rest, normalizeOutboundPayloads [{ text := some "a" }, { text := some "b" }] =
      c6out.onPayloadCalls ++ rest) := by
  have h := C6_non_best_effort_delivery chunkPair chunkPair (fun _ _ => 10) (fun _ => "")
    failFirstOracle {} Provider.whatsapp "+1555"
    [{ text := some "a" }, { text := some "b" }]
  exact ⟨h.1, (h.2.2 "boom" rfl).1, (h.2.2 "boom" rfl).2⟩

/-! ## Claim C7 -/

theorem sendOne_calls {E R : Type} {oracle : Nat → SendCall → Except E R}
    {call : SendCall} {s s' : DeliverState E R} {eOpt : Option E}
    (h : sendOne oracle call s = (s', eOpt)) : s'.calls = s.calls ++ [call] := by
  unfold sendOne at h
  cases hor : oracle s.counter call <;> rw [hor] at h <;> cases h <;> rfl

theorem sendMediaList_calls_eq {E R : Type} {oracle : Nat → SendCall → Except E R}
    {mkM : String → String → SendCall} {text : String} :
    ∀ {us : List String} {first : Bool} {s s' : DeliverState E R},
    sendMediaList oracle mkM text us first s = (s', none) →
    s'.calls = s.calls ++ mediaCallList mkM text us first := by
  intro us
  induction us with
  | nil =>
    intro first s s' h
    cases h
    simp [mediaCallList]
  | cons u us ih =>
    intro first s s' h
    unfold sendMediaList at h
    cases hso : sendOne oracle (mkM (if first then text else "") u) s with
    | mk s1 e1 =>
      rw [hso] at h
      cases e1 with
      | none =>
        rw [ih h, sendOne_calls hso]
        simp [mediaCallList]
      | some e0 => cases h

theorem mediaCallList_length (mkM : String → String → SendCall) (text : String) :
    ∀ (us : List String) (first : Bool),
    (mediaCallList mkM text us first).length = us.length
  | [], _ => rfl
  | _ :: us, first => by
    simp [mediaCallList, mediaCallList_length mkM text us false]

theorem mkMediaCall_mediaUrl (provider : Provider) (dest : String)
    (ttok : Option String) (smax imax : Option Nat) (cap u : String) :
    (mkMediaCall provider dest ttok smax imax cap u).mediaUrl = some u := by
  cases provider <;> rfl

theorem mkMediaCall_text (provider : Provider) (dest : String)
    (ttok : Option String) (smax imax : Option Nat) (cap u : String) :
    (mkMediaCall provider dest ttok smax imax cap u).text = cap := by
  cases provider <;> rfl

theorem mediaCallList_map_mediaUrl (provider : Provider) (dest : String)
    (ttok : Option String) (smax imax : Option Nat) (text : String) :
    ∀ (us : List String) (first : Bool),
    (mediaCallList (mkMediaCall provider dest ttok smax imax) text us first).map
      SendCall.mediaUrl = us.map some
  | [], _ => rfl
  | u :: us, first => by
    simp [mediaCallList, mkMediaCall_mediaUrl,
      mediaCallList_map_mediaUrl provider dest ttok smax imax text us false]

theorem mediaCallList_map_text (provider : Provider) (dest : String)
    (ttok : Option String) (smax imax : Option Nat) (text : String) :
    ∀ (us : List String),
    (mediaCallList (mkMediaCall provider dest ttok smax imax) text us false).map
      SendCall.text = List.replicate us.length ""
  | [] => rfl
  | u :: us => by
    simp [mediaCallList, mkMediaCall_text,
      mediaCallList_map_text provider dest ttok smax imax text us, List.replicate_succ]

/-- C7: for a payload with a non-empty media list processed without failure,
the dispatcher issues exactly one media send per URL — the call trace extends
by a block with one call per URL whose `mediaUrl` options follow the URL list
in order — and exactly the first of those calls carries the payload's text as
the caption while every subsequent call carries the empty string. -/
theorem C7_media_caption_policy {E R : Type} (oracle : Nat → SendCall → Except E R)
    (mkT : String → SendCall) (provider : Provider) (dest : String)
    (ttok : Option String) (smax imax : Option Nat)
    (chunker : Option (String → Nat → List String)) (textLimit : Option Nat)
    (p : NormalizedOutboundPayload) (s s' : DeliverState E R)
    (h0 : p.mediaUrls ≠ [])
    (h : processBody oracle mkT (mkMediaCall provider dest ttok smax imax) chunker
      textLimit p s = (s', none)) :
    ∃ appended, s'.calls = s.calls ++ appended ∧
      appended.length = p.mediaUrls.length ∧
      appended.map SendCall.mediaUrl = p.mediaUrls.map some ∧
      appended.map SendCall.text =
        p.text :: List.replicate (p.mediaUrls.length - 1) "" := by
  unfold processBody at h
  rw [if_neg (fun hl => h0 (List.length_eq_zero.mp hl))] at h
  refine ⟨mediaCallList (mkMediaCall provider dest ttok smax imax) p.text p.mediaUrls true,
    sendMediaList_calls_eq h, mediaCallList_length _ _ _ _,
    mediaCallList_map_mediaUrl provider dest ttok smax imax p.text p.mediaUrls true, ?_⟩
  obtain ⟨u, us, hus⟩ := List.exists_cons_of_ne_nil h0
  rw [hus]
  simp [mediaCallList, mkMediaCall_text,
    mediaCallList_map_text provider dest ttok smax imax p.text us]

/-- C7 witness: processing the two-URL payload `c7payload` for whatsapp with
every send succeeding instantiates `C7_media_caption_policy`. -/
theorem C7_media_caption_policy_witness :
    ∃ appended, (c7run.1).calls = ({} : DeliverState String String).calls ++ appended ∧
      appended.length = c7payload.mediaUrls.length ∧
      appended.map SendCall.mediaUrl = c7payload.mediaUrls.map some ∧
      appended.map SendCall.text =
        c7payload.text :: List.replicate (c7payload.mediaUrls.length - 1) "" :=
  C7_media_caption_policy allOkOracle (mkTextCall Provider.whatsapp "d" none none none)
    Provider.whatsapp "d" none none none none none c7payload {} c7run.1
    (by decide) rfl

/-! ## Claim C10 -/

theorem sendMediaList_calls_mono {E R : Type} {oracle : Nat → SendCall → Except E R}
    {mkM : String → String → SendCall} {text : String} :
    ∀ (us : List String) (first : Bool) (s : DeliverState E R),
    ∃ ext, (sendMediaList oracle mkM text us first s).1.calls = s.calls ++ ext
  | [], _, s => ⟨[], by simp [sendMediaList]⟩
  | u :: us, first, s => by
    unfold sendMediaList
    cases hso : sendOne oracle (mkM (if first then text else "") u) s with
    | mk s1 e1 =>
      have h1 := sendOne_calls hso
      cases e1 with
      | none =>
        obtain ⟨ext, hext⟩ := sendMediaList_calls_mono us false s1
        exact ⟨mkM (if first then text else "") u :: ext, by rw [hext, h1]; simp⟩
      | some e => exact ⟨[mkM (if first then text else "") u], h1⟩

/-- C10: a payload with media is processed identically for any chunker and any
text limit — neither is ever consulted — and its first media send carries the
payload's full text as the caption, however long that text is; the chunking
path is reachable only for payloads with no media. -/
theorem C10_media_skips_chunker {E R : Type} (oracle : Nat → SendCall → Except E R)
    (mkT1 mkT2 : String → SendCall) (mkM : String → String → SendCall)
    (ch1 ch2 : Option (String → Nat → List String)) (lim1 lim2 : Option Nat)
    (p : NormalizedOutboundPayload) (s : DeliverState E R) (u : String)
    (us : List String) (hm : p.mediaUrls = u :: us) :
    processBody oracle mkT1 mkM ch1 lim1 p s = processBody oracle mkT2 mkM ch2 lim2 p s ∧
    ∃ tail, (processBody oracle mkT1 mkM ch1 lim1 p s).1.calls =
      s.calls ++ mkM p.text u :: tail := by
  have hne : ¬ p.mediaUrls.length = 0 := by rw [hm]; simp
  constructor
  · unfold processBody
    rw [if_neg hne, if_neg hne]
  · unfold processBody
    rw [if_neg hne, hm]
    unfold sendMediaList
    cases hso : sendOne oracle (mkM (if true then p.text else "") u) s with
    | mk s1 e1 =>
      have h1 : s1.calls = s.calls ++ [mkM p.text u] := by
        have h2 := sendOne_calls hso
        simpa using h2
      cases e1 with
      | none =>
        obtain ⟨ext, hext⟩ := sendMediaList_calls_mono us false s1
        exact ⟨ext, by rw [hext, h1]; simp⟩
      | some e => exact ⟨[], by rw [h1]⟩

/-- C10 witness: the one-URL payload `c10payload` with an eight-character text
processed with a chunk limit of 2 behaves exactly as with no chunker at all,
and the single media call carries the whole text, instantiating
`C10_media_skips_chunker`. -/
theorem C10_media_skips_chunker_witness :
    processBody allOkOracle (mkTextCall Provider.whatsapp "d" none none none)
      (mkMediaCall Provider.whatsapp "d" none none none) (some chunkPair) (some 2)
      c10payload ({} : DeliverState String String) =
    processBody allOkOracle (mkTextCall Provider.whatsapp "d" none none none)
      (mkMediaCall Provider.whatsapp "d" none none none) none none
      c10payload ({} : DeliverState String String) ∧
    ∃ tail, (processBody allOkOracle (mkTextCall Provider.whatsapp "d" none none none)
      (mkMediaCall Provider.whatsapp "d" none none none) (some chunkPair) (some 2)
      c10payload ({} : DeliverState String String)).1.calls =
      ({} : DeliverState String String).calls ++
        mkMediaCall Provider.whatsapp "d" none none none c10payload.text
          "https://x.test/a.jpg" :: tail :=
  C10_media_skips_chunker allOkOracle (mkTextCall Provider.whatsapp "d" none none none)
    (mkTextCall Provider.whatsapp "d" none none none)
    (mkMediaCall Provider.whatsapp "d" none none none) (some chunkPair) none
    (some 2) none c10payload {} "https://x.test/a.jpg" [] rfl

/-! ## Claim C8 -/

theorem normalize_single_text (text : String) (ht : text ≠ "") :
    normalizeOutboundPayloads [{ text := some text }] =
      [{ text := text, mediaUrls := [] }] := by
  simp [normalizeOutboundPayloads, ht]

theorem deliverGo_single_text_no_chunker {E R : Type} (oracle : Nat → SendCall → Except E R)
    (mkT : String → SendCall) (mkM : String → String → SendCall) (bestEffort : Bool)
    (text : String) (s : DeliverState E R) :
    (deliverGo oracle mkT mkM none none bestEffort
      [{ text := text, mediaUrls := [] }] s).1.calls = s.calls ++ [mkT text] := by
  unfold deliverGo
  cases hpb : processBody oracle mkT mkM none none { text := text, mediaUrls := [] }
      { s with onPayloadCalls := s.onPayloadCalls ++ [{ text := text, mediaUrls := [] }] } with
  | mk s1 e1 =>
    have hone : sendOne oracle (mkT text)
        { s with onPayloadCalls :=
          s.onPayloadCalls ++ [{ text := text, mediaUrls := [] }] } = (s1, e1) := hpb
    have hcalls : s1.calls = s.calls ++ [mkT text] := by
      simpa using sendOne_calls hone
    cases e1 with
    | none =>
      show (deliverGo oracle mkT mkM none none bestEffort [] s1).1.calls = _
      exact hcalls
    | some e =>
      cases bestEffort with
      | true =>
        show (deliverGo oracle mkT mkM none none true []
          { s1 with onErrorCalls :=
            s1.onErrorCalls ++ [(e, { text := text, mediaUrls := [] })] }).1.calls = _
        exact hcalls
      | false =>
        show ((s1, some e) : DeliverState E R × Option E).1.calls = _
        exact hcalls

theorem sendTextList_allOk_calls {E R : Type} (r : R) (mkT : String → SendCall) :
    ∀ (ts : List String) (s : DeliverState E R),
    ((sendTextList (fun _ _ => Except.ok r) mkT ts s).1.calls = s.calls ++ ts.map mkT) ∧
    (sendTextList (fun _ _ => Except.ok r) mkT ts s).2 = none
  | [], s => ⟨by simp [sendTextList], rfl⟩
  | t :: ts, s => by
    have h := sendTextList_allOk_calls r mkT ts
      { s with results := s.results ++ [((mkT t).provider, r)]
               calls := s.calls ++ [mkT t], counter := s.counter + 1 }
    constructor
    · show (sendTextList (fun _ _ => Except.ok r) mkT ts
        { s with results := s.results ++ [((mkT t).provider, r)]
                 calls := s.calls ++ [mkT t], counter := s.counter + 1 }).1.calls = _
      rw [h.1]
      simp
    · exact h.2

theorem deliverGo_single_text_chunker {E R : Type} (r : R)
    (mkT : String → SendCall) (mkM : String → String → SendCall)
    (fn : String → Nat → List String) (lim : Nat) (bestEffort : Bool)
    (text : String) (s : DeliverState E R) :
    (deliverGo (fun _ _ => Except.ok r) mkT mkM (some fn) (some lim) bestEffort
      [{ text := text, mediaUrls := [] }] s).1.calls =
      s.calls ++ (fn text lim).map mkT := by
  unfold deliverGo
  cases hpb : processBody (fun _ _ => Except.ok r) mkT mkM (some fn) (some lim)
      { text := text, mediaUrls := [] }
      { s with onPayloadCalls := s.onPayloadCalls ++ [{ text := text, mediaUrls := [] }] } with
  | mk s1 e1 =>
    have hstl : sendTextList (fun _ _ => Except.ok r) mkT (fn text lim)
        { s with onPayloadCalls :=
          s.onPayloadCalls ++ [{ text := text, mediaUrls := [] }] } = (s1, e1) := hpb
    have hc := sendTextList_allOk_calls r mkT (fn text lim)
      { s with onPayloadCalls := s.onPayloadCalls ++ [{ text := text, mediaUrls := [] }] }
    rw [hstl] at hc
    have he1 : e1 = none := hc.2
    subst he1
    show (deliverGo (fun _ _ => Except.ok r) mkT mkM (some fn) (some lim) bestEffort
      [] s1).1.calls = _
    show s1.calls = _
    have := hc.1
    simpa using this

/-- C8: the chunker policy is the fixed per-provider table — the markdown-aware
splitter exactly for telegram, the plain splitter exactly for whatsapp, signal
and imessage, and no splitter exactly for slack and discord; the configured
text limit is resolved only when a chunker applies; a provider without a
chunker sends a text payload as one single unchunked call, for any configured
chunkers and limit; and a provider with a chunker sends exactly the chunks
produced by its splitter at the resolved limit, one call per chunk in order. -/
theorem C8_chunker_selection {E R : Type} (oracle : Nat → SendCall → Except E R)
    (cmt ct : String → Nat → List String) (rtl : ClawdbotConfig → Provider → Nat)
    (tct : ClawdbotConfig → String) (cfg : ClawdbotConfig) (dest text : String)
    (bestEffort : Bool) (r : R) (p : Provider) :
    ((resolveChunker p = some ChunkerKind.markdown) ↔ p = Provider.telegram) ∧
    ((resolveChunker p = some ChunkerKind.plain) ↔
      (p = Provider.whatsapp ∨ p = Provider.signal ∨ p = Provider.imessage)) ∧
    ((resolveChunker p = none) ↔ (p = Provider.slack ∨ p = Provider.discord)) ∧
    ((resolveChunker p).isSome = false → deliverTextLimit rtl cfg p = none) ∧
    (∀ k, resolveChunker p = some k →
      deliverTextLimit rtl cfg p = some (rtl cfg p)) ∧
    (resolveChunker p = none → text ≠ "" →
      (deliverOutboundPayloads cmt ct rtl tct oracle cfg p dest
        [{ text := some text }] bestEffort).calls
        = [mkTextCall p dest (telegramTokenOpt tct cfg p)
            (providerSignalMaxBytes cfg p) (providerIMessageMaxBytes cfg p) text]) ∧
    (∀ k, resolveChunker p = some k → text ≠ "" →
      (deliverOutboundPayloads cmt ct rtl tct (fun _ _ => (Except.ok r : Except E R)) cfg p dest
        [{ text := some text }] bestEffort).calls
        = ((match k with
            | ChunkerKind.markdown => cmt
            | ChunkerKind.plain => ct) text (rtl cfg p)).map
            (mkTextCall p dest (telegramTokenOpt tct cfg p)
              (providerSignalMaxBytes cfg p) (providerIMessageMaxBytes cfg p))) := by
  refine ⟨by cases p <;> simp [resolveChunker], by cases p <;> simp [resolveChunker],
    by cases p <;> simp [resolveChunker], ?_, ?_, ?_, ?_⟩
  · intro h
    simp [deliverTextLimit, h]
  · intro k hk
    simp [deliverTextLimit, hk]
  · intro hp ht
    unfold deliverOutboundPayloads
    rw [normalize_single_text text ht, hp]
    have hlim : deliverTextLimit rtl cfg p = none := by
      simp [deliverTextLimit, hp]
    rw [hlim]
    simp only [deliverChunkerFn]
    cases hgo : deliverGo oracle
        (mkTextCall p dest (telegramTokenOpt tct cfg p)
          (providerSignalMaxBytes cfg p) (providerIMessageMaxBytes cfg p))
        (mkMediaCall p dest (telegramTokenOpt tct cfg p)
          (providerSignalMaxBytes cfg p) (providerIMessageMaxBytes cfg p))
        none none bestEffort [{ text := text, mediaUrls := [] }] {} with
    | mk sEnd eOpt =>
      have h1 := deliverGo_single_text_no_chunker oracle
        (mkTextCall p dest (telegramTokenOpt tct cfg p)
          (providerSignalMaxBytes cfg p) (providerIMessageMaxBytes cfg p))
        (mkMediaCall p dest (telegramTokenOpt tct cfg p)
          (providerSignalMaxBytes cfg p) (providerIMessageMaxBytes cfg p))
        bestEffort text {}
      rw [hgo] at h1
      cases eOpt with
      | none => simpa using h1
      | some e => simpa using h1
  · intro k hk ht
    unfold deliverOutboundPayloads
    rw [normalize_single_text text ht, hk]
    have hlim : deliverTextLimit rtl cfg p = some (rtl cfg p) := by
      simp [deliverTextLimit, hk]
    rw [hlim]
    cases k with
    | markdown =>
      simp only [deliverChunkerFn]
      cases hgo : deliverGo (fun _ _ => Except.ok r)
          (mkTextCall p dest (telegramTokenOpt tct cfg p)
            (providerSignalMaxBytes cfg p) (providerIMessageMaxBytes cfg p))
          (mkMediaCall p dest (telegramTokenOpt tct cfg p)
            (providerSignalMaxBytes cfg p) (providerIMessageMaxBytes cfg p))
          (some cmt) (some (rtl cfg p)) bestEffort
          [{ text := text, mediaUrls := [] }] {} with
      | mk sEnd eOpt =>
        have h1 := deliverGo_single_text_chunker (E := E) r
          (mkTextCall p dest (telegramTokenOpt tct cfg p)
            (providerSignalMaxBytes cfg p) (providerIMessageMaxBytes cfg p))
          (mkMediaCall p dest (telegramTokenOpt tct cfg p)
            (providerSignalMaxBytes cfg p) (providerIMessageMaxBytes cfg p))
          cmt (rtl cfg p) bestEffort text {}
        rw [hgo] at h1
        cases eOpt with
        | none => simpa using h1
        | some e => simpa using h1
    | plain =>
      simp only [deliverChunkerFn]
      cases hgo : deliverGo (fun _ _ => Except.ok r)
          (mkTextCall p dest (telegramTokenOpt tct cfg p)
            (providerSignalMaxBytes cfg p) (providerIMessageMaxBytes cfg p))
          (mkMediaCall p dest (telegramTokenOpt tct cfg p)
            (providerSignalMaxBytes cfg p) (providerIMessageMaxBytes cfg p))
          (some ct) (some (rtl cfg p)) bestEffort
          [{ text := text, mediaUrls := [] }] {} with
      | mk sEnd eOpt =>
        have h1 := deliverGo_single_text_chunker (E := E) r
          (mkTextCall p dest (telegramTokenOpt tct cfg p)
            (providerSignalMaxBytes cfg p) (providerIMessageMaxBytes cfg p))
          (mkMediaCall p dest (telegramTokenOpt tct cfg p)
            (providerSignalMaxBytes cfg p) (providerIMessageMaxBytes cfg p))
          ct (rtl cfg p) bestEffort text {}
        rw [hgo] at h1
        cases eOpt with
        | none => simpa using h1
        | some e => simpa using h1

/-- C8 witness: a slack delivery sends "hi" as one unchunked call even with a
configured limit of 5, and a telegram delivery of "abcd" with chunk limit 2
issues one call per markdown chunk, instantiating `C8_chunker_selection`
(mirroring the repository's telegram chunking test). -/
theorem C8_chunker_selection_witness :
    (deliverOutboundPayloads chunkPair chunkPair (fun _ _ => 5) (fun _ => "")
      allOkOracle {} Provider.slack "d" [{ text := some "hi" }] true).calls
      = [mkTextCall Provider.slack "d" (telegramTokenOpt (fun _ => "") {} Provider.slack)
          (providerSignalMaxBytes {} Provider.slack)
          (providerIMessageMaxBytes {} Provider.slack) "hi"] ∧
    (deliverOutboundPayloads chunkPair chunkPair (fun _ _ => 2) (fun _ => "tok-1")
      (fun _ _ => (Except.ok "ok" : Except String String)) {} Provider.telegram "123"
      [{ text := some "abcd" }] true).calls
      = (chunkPair "abcd" 2).map
          (mkTextCall Provider.telegram "123"
            (telegramTokenOpt (fun _ => "tok-1") {} Provider.telegram)
            (providerSignalMaxBytes {} Provider.telegram)
            (providerIMessageMaxBytes {} Provider.telegram)) := by
  constructor
  · exact (C8_chunker_selection allOkOracle chunkPair chunkPair (fun _ _ => 5)
      (fun _ => "") {} "d" "hi" true "ok" Provider.slack).2.2.2.2.2.1 rfl (by decide)
  · exact (C8_chunker_selection allOkOracle chunkPair chunkPair (fun _ _ => 2)
      (fun _ => "tok-1") {} "123" "abcd" true "ok" Provider.telegram).2.2.2.2.2.2
      ChunkerKind.markdown rfl (by decide)

/-! ## Claim C9 -/

theorem sendOne_pred {E R : Type} {oracle : Nat → SendCall → Except E R}
    {call : SendCall} {s s' : DeliverState E R} {eOpt : Option E}
    {P : SendCall → Prop} (h : sendOne oracle call s = (s', eOpt))
    (hs : ∀ c ∈ s.calls, P c) (hc : P call) : ∀ c ∈ s'.calls, P c := by
  intro c hmem
  rw [sendOne_calls h] at hmem
  rcases List.mem_append.mp hmem with hmem | hmem
  · exact hs c hmem
  · rw [List.mem_singleton.mp hmem]
    exact hc

theorem sendTextList_pred {E R : Type} {oracle : Nat → SendCall → Except E R}
    {mkT : String → SendCall} {P : SendCall → Prop} (hT : ∀ t, P (mkT t)) :
    ∀ {ts : List String} {s s' : DeliverState E R} {eOpt : Option E},
    sendTextList oracle mkT ts s = (s', eOpt) →
    (∀ c ∈ s.calls, P c) → ∀ c ∈ s'.calls, P c := by
  intro ts
  induction ts with
  | nil =>
    intro s s' eOpt h hs
    cases h
    exact hs
  | cons t ts ih =>
    intro s s' eOpt h hs
    unfold sendTextList at h
    cases hso : sendOne oracle (mkT t) s with
    | mk s1 e1 =>
      rw [hso] at h
      have hs1 := sendOne_pred hso hs (hT t)
      cases e1 with
      | none => exact ih h hs1
      | some e0 =>
        cases h
        exact hs1

theorem sendMediaList_pred {E R : Type} {oracle : Nat → SendCall → Except E R}
    {mkM : String → String → SendCall} {text : String} {P : SendCall → Prop}
    (hM : ∀ cap u, P (mkM cap u)) :
    ∀ {us : List String} {first : Bool} {s s' : DeliverState E R} {eOpt : Option E},
    sendMediaList oracle mkM text us first s = (s', eOpt) →
    (∀ c ∈ s.calls, P c) → ∀ c ∈ s'.calls, P c := by
  intro us
  induction us with
  | nil =>
    intro first s s' eOpt h hs
    cases h
    exact hs
  | cons u us ih =>
    intro first s s' eOpt h hs
    unfold sendMediaList at h
    cases hso : sendOne oracle (mkM (if first then text else "") u) s with
    | mk s1 e1 =>
      rw [hso] at h
      have hs1 := sendOne_pred hso hs (hM _ u)
      cases e1 with
      | none => exact ih h hs1
      | some e0 =>
        cases h
        exact hs1

theorem processBody_pred {E R : Type} {oracle : Nat → SendCall → Except E R}
    {mkT : String → SendCall} {mkM : String → String → SendCall}
    {chunker : Option (String → Nat → List String)} {textLimit : Option Nat}
    {p : NormalizedOutboundPayload} {s s' : DeliverState E R} {eOpt : Option E}
    {P : SendCall → Prop} (hT : ∀ t, P (mkT t)) (hM : ∀ cap u, P (mkM cap u))
    (h : processBody oracle mkT mkM chunker textLimit p s = (s', eOpt))
    (hs : ∀ c ∈ s.calls, P c) : ∀ c ∈ s'.calls, P c := by
  unfold processBody at h
  by_cases hm : p.mediaUrls.length = 0
  · rw [if_pos hm] at h
    unfold sendTextChunks at h
    cases chunker with
    | none =>
      cases textLimit with
      | none => exact sendOne_pred h hs (hT _)
      | some limit => exact sendOne_pred h hs (hT _)
    | some ch =>
      cases textLimit with
      | none => exact sendOne_pred h hs (hT _)
      | some limit => exact sendTextList_pred hT h hs
  · rw [if_neg hm] at h
    exact sendMediaList_pred hM h hs

theorem deliverGo_pred {E R : Type} {oracle : Nat → SendCall → Except E R}
    {mkT : String → SendCall} {mkM : String → String → SendCall}
    {chunker : Option (String → Nat → List String)} {textLimit : Option Nat}
    {bestEffort : Bool} {P : SendCall → Prop}
    (hT : ∀ t, P (mkT t)) (hM : ∀ cap u, P (mkM cap u)) :
    ∀ {ps : List NormalizedOutboundPayload} {s s' : DeliverState E R} {eOpt : Option E},
    deliverGo oracle mkT mkM chunker textLimit bestEffort ps s = (s', eOpt) →
    (∀ c ∈ s.calls, P c) → ∀ c ∈ s'.calls, P c := by
  intro ps
  induction ps with
  | nil =>
    intro s s' eOpt h hs
    cases h
    exact hs
  | cons p ps ih =>
    intro s s' eOpt h hs
    unfold deliverGo at h
    cases hpb : processBody oracle mkT mkM chunker textLimit p
        { s with onPayloadCalls := s.onPayloadCalls ++ [p] } with
    | mk s1 e1 =>
      rw [hpb] at h
      have hs1 : ∀ c ∈ s1.calls, P c := processBody_pred hT hM hpb hs
      cases e1 with
      | none => exact ih h hs1
      | some e =>
        cases bestEffort with
        | true => exact ih h hs1
        | false =>
          have h2 : (s1, some e) = (s', eOpt) := h
          cases h2
          exact hs1

theorem deliver_calls_pred {E R : Type} (P : SendCall → Prop)
    (cmt ct : String → Nat → List String) (rtl : ClawdbotConfig → Provider → Nat)
    (tct : ClawdbotConfig → String) (oracle : Nat → SendCall → Except E R)
    (cfg : ClawdbotConfig) (provider : Provider) (dest : String)
    (payloads : List ReplyPayload) (bestEffort : Bool)
    (hT : ∀ t, P (mkTextCall provider dest (telegramTokenOpt tct cfg provider)
      (providerSignalMaxBytes cfg provider) (providerIMessageMaxBytes cfg provider) t))
    (hM : ∀ cap u, P (mkMediaCall provider dest (telegramTokenOpt tct cfg provider)
      (providerSignalMaxBytes cfg provider) (providerIMessageMaxBytes cfg provider) cap u)) :
    ∀ c ∈ (deliverOutboundPayloads cmt ct rtl tct oracle cfg provider dest payloads
      bestEffort).calls, P c := by
  rcases hgo : deliverGo oracle
      (mkTextCall provider dest (telegramTokenOpt tct cfg provider)
        (providerSignalMaxBytes cfg provider) (providerIMessageMaxBytes cfg provider))
      (mkMediaCall provider dest (telegramTokenOpt tct cfg provider)
        (providerSignalMaxBytes cfg provider) (providerIMessageMaxBytes cfg provider))
      (deliverChunkerFn cmt ct (resolveChunker provider))
      (deliverTextLimit rtl cfg provider) bestEffort
      (normalizeOutboundPayloads payloads) {} with ⟨s, eOpt⟩
  have hall := deliverGo_pred hT hM hgo (by intro c hc; cases hc)
  simp only [deliverOutboundPayloads, hgo]
  cases eOpt with
  | none => exact hall
  | some e => exact hall

theorem mkTextCall_maxBytes (p : Provider) (dest : String) (ttok : Option String)
    (smax imax : Option Nat) (t : String) :
    (mkTextCall p dest ttok smax imax t).maxBytes =
      (match p with
        | Provider.signal => smax
        | Provider.imessage => imax
        | _ => none) := by
  cases p <;> rfl

theorem mkMediaCall_maxBytes (p : Provider) (dest : String) (ttok : Option String)
    (smax imax : Option Nat) (cap u : String) :
    (mkMediaCall p dest ttok smax imax cap u).maxBytes =
      (match p with
        | Provider.signal => smax
        | Provider.imessage => imax
        | _ => none) := by
  cases p <;> rfl

/-- C9 (amended): `resolveSignalMaxBytes` / `resolveIMessageMaxBytes` return
the provider-specific configured megabyte value times 1,048,576 when that value
is present and nonzero, else the agent-wide value times 1,048,576 when that is
present and nonzero, else no ceiling (a present-but-zero provider value falls
through, because the code tests JS truthiness); a signal delivery passes
exactly the signal ceiling on every send, an imessage delivery exactly the
imessage ceiling, and every other provider passes no byte ceiling on any
send. -/
theorem C9_media_byte_ceiling {E R : Type}
    (cmt ct : String → Nat → List String) (rtl : ClawdbotConfig → Provider → Nat)
    (tct : ClawdbotConfig → String) (oracle : Nat → SendCall → Except E R)
    (cfg : ClawdbotConfig) (provider : Provider) (dest : String)
    (payloads : List ReplyPayload) (bestEffort : Bool) :
    (∀ n, cfg.signal.bind MediaCfg.mediaMaxMb = some n → n ≠ 0 →
      resolveSignalMaxBytes cfg = some (n * 1048576)) ∧
    ((cfg.signal.bind MediaCfg.mediaMaxMb = none ∨
        cfg.signal.bind MediaCfg.mediaMaxMb = some 0) →
      ∀ m, cfg.agent.bind MediaCfg.mediaMaxMb = some m → m ≠ 0 →
      resolveSignalMaxBytes cfg = some (m * 1048576)) ∧
    ((cfg.signal.bind MediaCfg.mediaMaxMb = none ∨
        cfg.signal.bind MediaCfg.mediaMaxMb = some 0) →
      (cfg.agent.bind MediaCfg.mediaMaxMb = none ∨
        cfg.agent.bind MediaCfg.mediaMaxMb = some 0) →
      resolveSignalMaxBytes cfg = none) ∧
    (∀ n, cfg.imessage.bind MediaCfg.mediaMaxMb = some n → n ≠ 0 →
      resolveIMessageMaxBytes cfg = some (n * 1048576)) ∧
    ((cfg.imessage.bind MediaCfg.mediaMaxMb = none ∨
        cfg.imessage.bind MediaCfg.mediaMaxMb = some 0) →
      ∀ m, cfg.agent.bind MediaCfg.mediaMaxMb = some m → m ≠ 0 →
      resolveIMessageMaxBytes cfg = some (m * 1048576)) ∧
    ((cfg.imessage.bind MediaCfg.mediaMaxMb = none ∨
        cfg.imessage.bind MediaCfg.mediaMaxMb = some 0) →
      (cfg.agent.bind MediaCfg.mediaMaxMb = none ∨
        cfg.agent.bind MediaCfg.mediaMaxMb = some 0) →
      resolveIMessageMaxBytes cfg = none) ∧
    (provider = Provider.signal →
      ∀ c ∈ (deliverOutboundPayloads cmt ct rtl tct oracle cfg provider dest payloads
        bestEffort).calls, c.maxBytes = resolveSignalMaxBytes cfg) ∧
    (provider = Provider.imessage →
      ∀ c ∈ (deliverOutboundPayloads cmt ct rtl tct oracle cfg provider dest payloads
        bestEffort).calls, c.maxBytes = resolveIMessageMaxBytes cfg) ∧
    (provider ≠ Provider.signal → provider ≠ Provider.imessage →
      ∀ c ∈ (deliverOutboundPayloads cmt ct rtl tct oracle cfg provider dest payloads
        bestEffort).calls, c.maxBytes = none) := by
  refine ⟨?_, ?_, ?_, ?_, ?_, ?_, ?_, ?_, ?_⟩
  · intro n h1 h2
    simp [resolveSignalMaxBytes, truthyNat, h1, h2, MB]
  · rintro (h1 | h1) m h2 h3 <;>
      simp [resolveSignalMaxBytes, truthyNat, h1, h2, h3, MB]
  · rintro (h1 | h1) (h2 | h2) <;>
      simp [resolveSignalMaxBytes, truthyNat, h1, h2, MB]
  · intro n h1 h2
    simp [resolveIMessageMaxBytes, truthyNat, h1, h2, MB]
  · rintro (h1 | h1) m h2 h3 <;>
      simp [resolveIMessageMaxBytes, truthyNat, h1, h2, h3, MB]
  · rintro (h1 | h1) (h2 | h2) <;>
      simp [resolveIMessageMaxBytes, truthyNat, h1, h2, MB]
  · intro hp
    subst hp
    refine deliver_calls_pred _ cmt ct rtl tct oracle cfg Provider.signal dest payloads
      bestEffort ?_ ?_
    · intro t
      rw [mkTextCall_maxBytes]
      simp [providerSignalMaxBytes]
    · intro cap u
      rw [mkMediaCall_maxBytes]
      simp [providerSignalMaxBytes]
  · intro hp
    subst hp
    refine deliver_calls_pred _ cmt ct rtl tct oracle cfg Provider.imessage dest payloads
      bestEffort ?_ ?_
    · intro t
      rw [mkTextCall_maxBytes]
      simp [providerIMessageMaxBytes]
    · intro cap u
      rw [mkMediaCall_maxBytes]
      simp [providerIMessageMaxBytes]
  · intro hp1 hp2
    refine deliver_calls_pred _ cmt ct rtl tct oracle cfg provider dest payloads
      bestEffort ?_ ?_
    · intro t
      rw [mkTextCall_maxBytes]
      cases provider <;> simp_all
    · intro cap u
      rw [mkMediaCall_maxBytes]
      cases provider <;> simp_all

/-- C9 counterexample: with `signal.mediaMaxMb` present but zero and
`agent.mediaMaxMb = 5`, the resolved ceiling is the agent value
`5 × 1,048,576`, not the present provider value `0 × 1,048,576` the claim
prescribes — the code tests truthiness, not presence. -/
theorem C9_media_byte_ceiling_counterexample :
    c9cfg.signal.bind MediaCfg.mediaMaxMb = some 0 ∧
    resolveSignalMaxBytes c9cfg = some (5 * 1048576) ∧
    resolveSignalMaxBytes c9cfg ≠ some (0 * 1048576) := by
  refine ⟨rfl, rfl, ?_⟩
  decide

/-- C9 witness: the repository's own signal test config (`signal.mediaMaxMb =
2`) resolves to `2 × 1,048,576` via `C9_media_byte_ceiling`. -/
theorem C9_media_byte_ceiling_witness :
    resolveSignalMaxBytes c9cfgSignal = some (2 * 1048576) :=
  (C9_media_byte_ceiling chunkPair chunkPair (fun _ _ => 2) (fun _ => "")
    allOkOracle c9cfgSignal Provider.signal "+1555" [] true).1 2 rfl (by decide)

/-! ## Claim C3 -/

theorem gatewayStep_settled {T : Type} (d : String) (tm : Nat)
    (s : GatewayCallState T) (e : GatewayEvent T) (h : s.settled = true) :
    (gatewayStep d tm s e).outcome = s.outcome ∧
    (gatewayStep d tm s e).settled = true := by
  cases e <;> simp [gatewayStep, stopWith, h]

theorem foldl_gatewayStep_settled {T : Type} (d : String) (tm : Nat) :
    ∀ (evs : List (GatewayEvent T)) (s : GatewayCallState T), s.settled = true →
    (evs.foldl (gatewayStep d tm) s).outcome = s.outcome ∧
    (evs.foldl (gatewayStep d tm) s).settled = true
  | [], s, h => ⟨rfl, h⟩
  | e :: evs, s, h => by
    obtain ⟨h1, h2⟩ := gatewayStep_settled d tm s e h
    obtain ⟨h3, h4⟩ := foldl_gatewayStep_settled d tm evs (gatewayStep d tm s e) h2
    exact ⟨by rw [List.foldl_cons, h3, h1], by rw [List.foldl_cons]; exact h4⟩

/-- C3: once the gateway call has settled — whether by request completion,
request failure, a close event, or the timeout — any sequence of further
events leaves the outcome unchanged and the state settled; in particular a
close event arriving after a request already completed leaves the resolved
value in place. -/
theorem C3_single_settlement {T : Type} (details : String) (timeoutMs : Nat)
    (evs1 evs2 : List (GatewayEvent T))
    (h : (gatewayRun details timeoutMs evs1).settled = true) :
    (gatewayRun details timeoutMs (evs1 ++ evs2)).outcome =
      (gatewayRun details timeoutMs evs1).outcome ∧
    (gatewayRun details timeoutMs (evs1 ++ evs2)).settled = true ∧
    ∀ (v : T) (code : Nat) (reason : String),
      (gatewayRun details timeoutMs
        [GatewayEvent.requestOk v, GatewayEvent.closeEvt code reason]).outcome =
        some (Except.ok v) := by
  unfold gatewayRun at h ⊢
  rw [List.foldl_append]
  obtain ⟨h1, h2⟩ := foldl_gatewayStep_settled details timeoutMs evs2 _ h
  exact ⟨h1, h2, fun v code reason => rfl⟩

/-- C3 witness: a request that resolves with `7` followed by a late abnormal
close (code 1006), instantiating `C3_single_settlement`. -/
theorem C3_single_settlement_witness :
    (gatewayRun "" 10000 ([GatewayEvent.requestOk (7 : Nat)] ++
      [GatewayEvent.closeEvt 1006 "late"])).outcome =
      (gatewayRun "" 10000 [GatewayEvent.requestOk (7 : Nat)]).outcome ∧
    (gatewayRun "" 10000
      [GatewayEvent.requestOk (7 : Nat), GatewayEvent.closeEvt 1006 "late"]).outcome =
      some (Except.ok 7) := by
  have h := C3_single_settlement "" 10000 [GatewayEvent.requestOk (7 : Nat)]
    [GatewayEvent.closeEvt 1006 "late"] rfl
  exact ⟨h.1, h.2.2 7 1006 "late"⟩

/-! ## Claim C4 -/

theorem length_pos_of_ne_empty {s : String} (h : s ≠ "") : 0 < s.length := by
  cases s with
  | mk data =>
    cases data with
    | nil => exact absurd rfl h
    | cons c cs => simp [String.length]

theorem ne_empty_of_length_pos {s : String} (h : 0 < s.length) : s ≠ "" := by
  intro he
  rw [he] at h
  exact absurd h (by decide)

theorem nonBlankTrim_pos {o : Option String} {t : String}
    (h : nonBlankTrim o = some t) : 0 < t.length := by
  cases o with
  | none => cases h
  | some s =>
    simp only [nonBlankTrim] at h
    by_cases hl : 0 < (jsTrim s).length
    · rw [if_pos hl] at h
      injection h with h
      rw [← h]
      exact hl
    · rw [if_neg hl] at h
      cases h

theorem localUrl_ne_empty (gw : Option GatewayConfig) (tailnetIPv4 : Option String)
    (localPort : Nat) : callGatewayLocalUrl gw tailnetIPv4 localPort ≠ "" := by
  have h5 : (0 : Nat) < "ws://".length := by decide
  have h9 : (0 : Nat) < "ws://127.0.0.1:".length := by decide
  unfold callGatewayLocalUrl
  by_cases hp : ((gw.bind GatewayConfig.bind).getD "loopback" == "tailnet"
      || ((gw.bind GatewayConfig.bind).getD "loopback" == "auto"
          && truthyStr tailnetIPv4)) && truthyStr tailnetIPv4
  · rw [if_pos hp]
    apply ne_empty_of_length_pos
    rw [String.length_append, String.length_append, String.length_append]
    omega
  · rw [if_neg hp]
    apply ne_empty_of_length_pos
    rw [String.length_append]
    omega

/-- C4: the resolved target URL is never empty and follows the precedence: a
non-blank explicit URL argument (trimmed) always wins; else, in remote mode, a
non-blank configured remote URL (trimmed); else the locally constructed URL —
which uses the tailnet address when the bind mode is "tailnet" or "auto" and a
non-empty address is available, and loopback on the resolved port when no
address is available or the bind mode is the default "loopback". -/
theorem C4_url_resolution (gw : Option GatewayConfig)
    (optsUrl tailnetIPv4 : Option String) (localPort : Nat) :
    callGatewayUrl gw optsUrl tailnetIPv4 localPort ≠ "" ∧
    (∀ u, optsUrl = some u → jsTrim u ≠ "" →
      callGatewayUrl gw optsUrl tailnetIPv4 localPort = jsTrim u) ∧
    (nonBlankTrim optsUrl = none → gatewayIsRemoteMode gw = true →
      ∀ r, (gw.bind GatewayConfig.remote).bind GatewayRemoteConfig.url = some r →
      jsTrim r ≠ "" →
      callGatewayUrl gw optsUrl tailnetIPv4 localPort = jsTrim r) ∧
    (nonBlankTrim optsUrl = none →
      nonBlankTrim ((gatewayRemoteCfg gw).bind GatewayRemoteConfig.url) = none →
      callGatewayUrl gw optsUrl tailnetIPv4 localPort =
        callGatewayLocalUrl gw tailnetIPv4 localPort) ∧
    (gatewayIsRemoteMode gw = false → nonBlankTrim optsUrl = none →
      callGatewayUrl gw optsUrl tailnetIPv4 localPort =
        callGatewayLocalUrl gw tailnetIPv4 localPort) ∧
    (∀ a, ((gw.bind GatewayConfig.bind).getD "loopback" = "tailnet" ∨
        (gw.bind GatewayConfig.bind).getD "loopback" = "auto") →
      tailnetIPv4 = some a → a ≠ "" →
      callGatewayLocalUrl gw tailnetIPv4 localPort =
        "ws://" ++ a ++ ":" ++ toString localPort) ∧
    (truthyStr tailnetIPv4 = false →
      callGatewayLocalUrl gw tailnetIPv4 localPort =
        "ws://127.0.0.1:" ++ toString localPort) ∧
    ((gw.bind GatewayConfig.bind).getD "loopback" = "loopback" →
      callGatewayLocalUrl gw tailnetIPv4 localPort =
        "ws://127.0.0.1:" ++ toString localPort) := by
  refine ⟨?_, ?_, ?_, ?_, ?_, ?_, ?_, ?_⟩
  · unfold callGatewayUrl
    cases h1 : nonBlankTrim optsUrl with
    | some u =>
      simpa using ne_empty_of_length_pos (nonBlankTrim_pos h1)
    | none =>
      cases h2 : nonBlankTrim ((gatewayRemoteCfg gw).bind GatewayRemoteConfig.url) with
      | some r =>
        simpa using ne_empty_of_length_pos (nonBlankTrim_pos h2)
      | none =>
        simpa using localUrl_ne_empty gw tailnetIPv4 localPort
  · intro u hu ht
    subst hu
    unfold callGatewayUrl
    simp [nonBlankTrim, length_pos_of_ne_empty ht]
  · intro h1 h2 r h3 h4
    unfold callGatewayUrl
    rw [h1]
    have h5 : gatewayRemoteCfg gw = gw.bind GatewayConfig.remote := by
      simp [gatewayRemoteCfg, h2]
    rw [h5, h3]
    simp [nonBlankTrim, length_pos_of_ne_empty h4]
  · intro h1 h2
    unfold callGatewayUrl
    rw [h1, h2]
    rfl
  · intro h1 h2
    unfold callGatewayUrl
    rw [h2]
    have h5 : gatewayRemoteCfg gw = none := by
      simp [gatewayRemoteCfg, h1]
    rw [h5]
    rfl
  · intro a hbm ha hne
    have htr : truthyStr (some a) = true := by
      simpa [truthyStr] using hne
    rcases hbm with hbm | hbm <;>
      simp [callGatewayLocalUrl, hbm, ha, htr]
  · intro h
    simp [callGatewayLocalUrl, h]
  · intro h
    simp [callGatewayLocalUrl, h]

/-- C4 witness: a blank-padded explicit URL argument wins over the remote-mode
config `gwRemote`, resolving to its trimmed value, via `C4_url_resolution`. -/
theorem C4_url_resolution_witness :
    callGatewayUrl (some gwRemote) (some " ws://o ") none 18789 = jsTrim " ws://o " ∧
    jsTrim " ws://o " = "ws://o" := by
  refine ⟨(C4_url_resolution (some gwRemote) (some " ws://o ") none 18789).2.1
    " ws://o " rfl (by decide), rfl⟩

/-! ## Claim C5 -/

/-- C5: the auth token resolution — a non-blank explicit token argument
(trimmed) always wins over configuration and environment; otherwise, in remote
mode the token is exactly the trimmed non-blank remote config token (possibly
absent — environment and local config are not consulted), and in non-remote
mode it is the trimmed non-blank environment token, else the trimmed non-blank
locally configured auth token. -/
theorem C5_token_resolution (gw : Option GatewayConfig)
    (optsToken envToken : Option String) :
    (∀ t, optsToken = some t → jsTrim t ≠ "" →
      callGatewayToken gw optsToken envToken = some (jsTrim t)) ∧
    (nonBlankTrim optsToken = none → gatewayIsRemoteMode gw = true →
      callGatewayToken gw optsToken envToken =
        nonBlankTrim ((gw.bind GatewayConfig.remote).bind GatewayRemoteConfig.token)) ∧
    (nonBlankTrim optsToken = none → gatewayIsRemoteMode gw = false →
      ∀ t, envToken = some t → jsTrim t ≠ "" →
      callGatewayToken gw optsToken envToken = some (jsTrim t)) ∧
    (nonBlankTrim optsToken = none → gatewayIsRemoteMode gw = false →
      nonBlankTrim envToken = none →
      callGatewayToken gw optsToken envToken =
        nonBlankTrim ((gw.bind GatewayConfig.auth).bind GatewayAuthConfig.token)) := by
  refine ⟨?_, ?_, ?_, ?_⟩
  · intro t ht htr
    subst ht
    simp [callGatewayToken, nonBlankTrim, length_pos_of_ne_empty htr]
  · intro h1 h2
    unfold callGatewayToken
    rw [h1, h2]
    rfl
  · intro h1 h2 t het htr
    subst het
    unfold callGatewayToken
    rw [h1, h2]
    simp [nonBlankTrim, length_pos_of_ne_empty htr]
  · intro h1 h2 h3
    unfold callGatewayToken
    rw [h1, h2, h3]
    rfl

/-- C5 witness: in remote mode with an environment token set, a blank-padded
explicit token argument still wins, resolving to its trimmed value, via
`C5_token_resolution`. -/
theorem C5_token_resolution_witness :
    callGatewayToken (some gwRemote) (some " T1 ") (some "ENVTOK") =
      some (jsTrim " T1 ") ∧
    jsTrim " T1 " = "T1" := by
  refine ⟨(C5_token_resolution (some gwRemote) (some " T1 ") (some "ENVTOK")).1
    " T1 " rfl (by decide), rfl⟩

end Clawdbot
